import Mathlib

/-!
Verification of the live media-graph runtime (`src/senders/android/src/migration`).

Modelling conventions, fixed throughout this file:
* Wall-clock instants (`chrono::DateTime<Utc>`) are modelled as integer
  milliseconds (`Int`); `chrono::Duration::seconds s` is `1000 * s`
  and `Duration::num_milliseconds` on a difference of instants is plain
  integer subtraction.
* `serde_json::Value` is modelled by `JsonValue`, with all JSON numbers as
  rationals (`Rat` stands in for the `f64` arithmetic of the evaluator).
* The manager and the nodes are modelled in the regime where the streaming
  framework is not initialized (`gst_is_initialized() == 0`), exactly the
  regime exercised by the repository's own unit tests: every
  `sync_live_pipeline` returns `Ok(())` without touching anything, live
  pipelines stay `None`, and `sync_media_links` returns immediately.
* Rust `HashMap<String, V>` is modelled by an association list `SMap V`
  with key-unique insertion; iteration order of the model is list order.
-/

namespace Migration

/- Timestamps are in integer milliseconds (`Int`), modelling `chrono::DateTime<Utc>`. -/

/-- Model of `serde_json::Value`; numbers are collapsed to rationals. -/
inductive JsonValue where
  | null : JsonValue
  | bool (b : Bool) : JsonValue
  | num (q : Rat) : JsonValue
  | str (s : String) : JsonValue
  deriving DecidableEq, Repr

/-- Model of `Value::as_f64` (numbers only). -/
def JsonValue.as_f64 : JsonValue → Option Rat
  | .num q => some q
  | _ => none

/-- Model of `Value::is_number`. -/
def JsonValue.is_number : JsonValue → Bool
  | .num _ => true
  | _ => false

/-- Model of `Value::is_string`. -/
def JsonValue.is_string : JsonValue → Bool
  | .str _ => true
  | _ => false

/-- Model of `Value::as_str`. -/
def JsonValue.as_str : JsonValue → Option String
  | .str s => some s
  | _ => none

/-- Model of `Value::as_i64`: JSON integers only. -/
def JsonValue.as_i64 : JsonValue → Option Int
  | .num q => if q.den = 1 then some q.num else none
  | _ => none

/-- `protocol::ControlMode`. -/
inductive ControlMode where
  | set : ControlMode
  | interpolate : ControlMode
  deriving DecidableEq, Repr

/-- `protocol::ControlPoint`. -/
structure ControlPoint where
  id : String
  time : Int
  value : JsonValue
  mode : ControlMode
  deriving DecidableEq, Repr

/-- `protocol::State`. -/
inductive State where
  | Initial : State
  | Starting : State
  | Started : State
  | Stopping : State
  | Stopped : State
  deriving DecidableEq, Repr

/-! ## Control-point evaluator (`nodes/control.rs`) -/

/-- Model of `interpolate_values`: linear interpolation of two numeric
JSON values; `None` when either endpoint is not numeric. -/
def interpolate_values (s e : JsonValue) (r : Rat) : Option JsonValue :=
  match s.as_f64, e.as_f64 with
  | some sv, some ev => some (JsonValue.num (sv + (ev - sv) * r))
  | _, _ => none

/-- Accumulator update for the `before` candidate in the scan loop of
`evaluate_control_points`: keep the point with the latest time, later
list entries winning ties (`point.time >= candidate.time`). -/
def updBefore (b : Option ControlPoint) (p : ControlPoint) : Option ControlPoint :=
  match b with
  | none => some p
  | some c => if p.time ≥ c.time then some p else some c

/-- Accumulator update for the `after` candidate: keep the point with the
earliest time, earlier list entries winning ties (`point.time < candidate.time`). -/
def updAfter (a : Option ControlPoint) (p : ControlPoint) : Option ControlPoint :=
  match a with
  | none => some p
  | some c => if p.time < c.time then some p else some c

/-- The `for point in points` loop of `evaluate_control_points`, with the
two mutable candidates made explicit. -/
def scanPoints (t : Int) : List ControlPoint →
    Option ControlPoint × Option ControlPoint →
    Option ControlPoint × Option ControlPoint
  | [], acc => acc
  | p :: rest, (b, a) =>
    if p.time ≤ t then scanPoints t rest (updBefore b p, a)
    else scanPoints t rest (b, updAfter a p)

/-- The tail of `evaluate_control_points` once `current` is selected: every
branch of the Rust code returns `Some(...)` from here on (the early
`return Some(value)` and the final `Some(current.value.clone())`), so the
model returns the value directly. -/
def evalCurrent (current : ControlPoint) (a : Option ControlPoint) (t : Int) : JsonValue :=
  if current.mode = ControlMode.interpolate then
    match a with
    | some next =>
      let total_ms : Int := next.time - current.time
      if 0 < total_ms then
        let elapsed_ms : Int := max (t - current.time) 0
        let r : Rat := min (max ((elapsed_ms : Rat) / (total_ms : Rat)) 0) 1
        match interpolate_values current.value next.value r with
        | some v => v
        | none => current.value
      else current.value
    | none => current.value
  else current.value

/-- Model of `evaluate_control_points` (`nodes/control.rs`). -/
def evaluate_control_points (points : List ControlPoint) (t : Int) : Option JsonValue :=
  if points.isEmpty then none else
  match scanPoints t points (none, none) with
  | (b, a) =>
    match b.orElse (fun _ => a) with
    | none => none
    | some current => some (evalCurrent current a t)

/-! ### The evaluator semantics as the specification words it

The following definitions are written from the specification text of claim
C1 (they are the second definition of a refinement claim): select the
latest point at or before `t`, otherwise the earliest future point; then
interpolate towards the next strictly later point when the mode asks for
it and both endpoints are numeric. -/

/-- Latest point with `time ≤ t` of a time-sorted series (the last
element passing the filter). -/
def latestAtOrBefore (points : List ControlPoint) (t : Int) : Option ControlPoint :=
  (points.filter (fun p => p.time ≤ t)).getLast?

/-- Earliest point with `t < time` of a time-sorted series (the first
element passing the filter). -/
def firstAfter (points : List ControlPoint) (t : Int) : Option ControlPoint :=
  (points.filter (fun p => t < p.time)).head?

/-- Clamp a rational to an interval. -/
def clampRat (x lo hi : Rat) : Rat := min (max x lo) hi

/-- Specification-side evaluator for claim C1: choose `p` as the latest
point at or before `t` (else the earliest future point); if `p.mode` is
interpolate, a strictly later next point `q` exists and both values are
numeric, return `p.value + (q.value - p.value) * clamp((t - p.time) /
(q.time - p.time), 0, 1)`; otherwise return `p.value`. -/
def evalSpecCurrent (points : List ControlPoint) (p : ControlPoint) (t : Int) : JsonValue :=
  match (points.filter (fun q => p.time < q.time)).head? with
  | some q =>
    if p.mode = ControlMode.interpolate then
      match p.value.as_f64, q.value.as_f64 with
      | some pv, some qv =>
        JsonValue.num (pv + (qv - pv) *
          clampRat (((t - p.time : Int) : Rat) / ((q.time - p.time : Int) : Rat)) 0 1)
      | _, _ => p.value
    else p.value
  | none => p.value

def evalSpec (points : List ControlPoint) (t : Int) : Option JsonValue :=
  match (latestAtOrBefore points t).orElse (fun _ => firstAfter points t) with
  | none => none
  | some p => some (evalSpecCurrent points p t)

/-- A series with strictly increasing times (the order the manager
maintains; duplicate ids are allowed only with distinct times). -/
def TimeSorted (points : List ControlPoint) : Prop :=
  points.Pairwise (fun a b => a.time < b.time)

instance (points : List ControlPoint) : Decidable (TimeSorted points) := by
  unfold TimeSorted; infer_instance

/-! ### Characterization of the scan loop -/

lemma cons_getLast? (a : α) (l : List α) :
    (a :: l).getLast? = (match l.getLast? with | some x => some x | none => some a) := by
  cases l with
  | nil => rfl
  | cons b t =>
    rw [List.getLast?_cons_cons]
    cases h : (b :: t).getLast? with
    | none => simp at h
    | some x => simp

lemma scan_fst (t : Int) : ∀ (ps : List ControlPoint) (b a : Option ControlPoint),
    (∀ c, b = some c → ∀ p ∈ ps, c.time ≤ p.time) →
    ps.Pairwise (fun x y => x.time < y.time) →
    (scanPoints t ps (b, a)).1 =
      (match (ps.filter (fun p => p.time ≤ t)).getLast? with
        | some x => some x
        | none => b) := by
  intro ps
  induction ps with
  | nil => intro b a _ _; simp [scanPoints]
  | cons p rest ih =>
    intro b a hb hsort
    rw [List.pairwise_cons] at hsort
    obtain ⟨hp, hrest⟩ := hsort
    by_cases hpt : p.time ≤ t
    · have hupd : updBefore b p = some p := by
        cases b with
        | none => rfl
        | some c =>
          have hc : c.time ≤ p.time := hb c rfl p (List.mem_cons_self p rest)
          simp [updBefore, hc]
      have := ih (some p) a
        (by intro c hc q hq; cases hc; exact le_of_lt (hp q hq)) hrest
      rw [show scanPoints t (p :: rest) (b, a) = scanPoints t rest (updBefore b p, a) by
            simp [scanPoints, hpt],
          hupd, this]
      rw [List.filter_cons_of_pos (by simpa using hpt), cons_getLast?]
      cases (rest.filter (fun q => q.time ≤ t)).getLast? <;> rfl
    · have := ih b (updAfter a p)
        (by intro c hc q hq; exact hb c hc q (List.mem_cons_of_mem p hq)) hrest
      rw [show scanPoints t (p :: rest) (b, a) = scanPoints t rest (b, updAfter a p) by
            simp [scanPoints, hpt],
          this, List.filter_cons_of_neg (by simpa using hpt)]

lemma scan_snd (t : Int) : ∀ (ps : List ControlPoint) (b a : Option ControlPoint),
    (∀ c, a = some c → ∀ p ∈ ps, ¬ p.time < c.time) →
    ps.Pairwise (fun x y => x.time < y.time) →
    (scanPoints t ps (b, a)).2 =
      (match a with
        | some c => some c
        | none => (ps.filter (fun p => t < p.time)).head?) := by
  intro ps
  induction ps with
  | nil => intro b a _ _; cases a <;> simp [scanPoints]
  | cons p rest ih =>
    intro b a ha hsort
    rw [List.pairwise_cons] at hsort
    obtain ⟨hp, hrest⟩ := hsort
    by_cases hpt : p.time ≤ t
    · have := ih (updBefore b p) a
        (by intro c hc q hq; exact ha c hc q (List.mem_cons_of_mem p hq)) hrest
      rw [show scanPoints t (p :: rest) (b, a) = scanPoints t rest (updBefore b p, a) by
            simp [scanPoints, hpt],
          this, List.filter_cons_of_neg (by simpa using not_lt.mpr hpt)]
    · have hlt : t < p.time := not_le.mp hpt
      cases a with
      | none =>
        have := ih b (some p)
          (by intro c hc q hq; cases hc; exact not_lt.mpr (le_of_lt (hp q hq))) hrest
        rw [show scanPoints t (p :: rest) (b, none) = scanPoints t rest (b, updAfter none p) by
              simp [scanPoints, hpt],
            show updAfter none p = some p from rfl, this,
            List.filter_cons_of_pos (by simpa using hlt)]
        rfl
      | some c =>
        have hc : ¬ p.time < c.time := ha c rfl p (List.mem_cons_self p rest)
        have hupd : updAfter (some c) p = some c := by simp [updAfter, hc]
        have := ih b (some c)
          (by
            intro c' hc' q hq
            injection hc' with h
            subst h
            have h1 : c.time ≤ p.time := not_lt.mp hc
            exact not_lt.mpr (le_of_lt (lt_of_le_of_lt h1 (hp q hq))))
          hrest
        rw [show scanPoints t (p :: rest) (b, some c) =
              scanPoints t rest (b, updAfter (some c) p) by simp [scanPoints, hpt],
            hupd, this]

lemma updBefore_isSome (b : Option ControlPoint) (p : ControlPoint) :
    (updBefore b p).isSome := by
  cases b with
  | none => rfl
  | some c => simp only [updBefore]; split <;> rfl

lemma updAfter_isSome (a : Option ControlPoint) (p : ControlPoint) :
    (updAfter a p).isSome := by
  cases a with
  | none => rfl
  | some c => simp only [updAfter]; split <;> rfl

lemma scan_fst_isSome (t : Int) : ∀ (ps : List ControlPoint) (b a : Option ControlPoint),
    b.isSome → (scanPoints t ps (b, a)).1.isSome := by
  intro ps
  induction ps with
  | nil => intro b a hb; simpa [scanPoints] using hb
  | cons p rest ih =>
    intro b a hb
    by_cases hpt : p.time ≤ t
    · rw [show scanPoints t (p :: rest) (b, a) = scanPoints t rest (updBefore b p, a) by
            simp [scanPoints, hpt]]
      exact ih _ _ (updBefore_isSome b p)
    · rw [show scanPoints t (p :: rest) (b, a) = scanPoints t rest (b, updAfter a p) by
            simp [scanPoints, hpt]]
      exact ih _ _ hb

lemma scan_snd_isSome (t : Int) : ∀ (ps : List ControlPoint) (b a : Option ControlPoint),
    a.isSome → (scanPoints t ps (b, a)).2.isSome := by
  intro ps
  induction ps with
  | nil => intro b a ha; simpa [scanPoints] using ha
  | cons p rest ih =>
    intro b a ha
    by_cases hpt : p.time ≤ t
    · rw [show scanPoints t (p :: rest) (b, a) = scanPoints t rest (updBefore b p, a) by
            simp [scanPoints, hpt]]
      exact ih _ _ ha
    · rw [show scanPoints t (p :: rest) (b, a) = scanPoints t rest (b, updAfter a p) by
            simp [scanPoints, hpt]]
      exact ih _ _ (updAfter_isSome a p)

lemma scan_cons_some (t : Int) (p : ControlPoint) (rest : List ControlPoint) :
    (scanPoints t (p :: rest) (none, none)).1.isSome ∨
    (scanPoints t (p :: rest) (none, none)).2.isSome := by
  by_cases hpt : p.time ≤ t
  · left
    rw [show scanPoints t (p :: rest) (none, none) =
          scanPoints t rest (updBefore none p, none) by simp [scanPoints, hpt]]
    exact scan_fst_isSome t rest _ _ rfl
  · right
    rw [show scanPoints t (p :: rest) (none, none) =
          scanPoints t rest (none, updAfter none p) by simp [scanPoints, hpt]]
    exact scan_snd_isSome t rest _ _ rfl

lemma eval_cons_isSome (p : ControlPoint) (rest : List ControlPoint) (t : Int) :
    (evaluate_control_points (p :: rest) t).isSome := by
  have hor := scan_cons_some t p rest
  unfold evaluate_control_points
  rw [if_neg (by simp)]
  rcases hs : scanPoints t (p :: rest) (none, none) with ⟨b, a⟩
  rw [hs] at hor
  rcases b with _ | c
  · rcases a with _ | c
    · simp at hor
    · simp [Option.orElse]
  · simp [Option.orElse]

lemma pairwise_getLast?_max (m : ControlPoint) :
    ∀ (l : List ControlPoint), l.Pairwise (fun x y => x.time < y.time) →
    l.getLast? = some m → ∀ x ∈ l, x.time ≤ m.time := by
  intro l
  induction l with
  | nil => intro _ h; simp at h
  | cons c l' ih =>
    intro hsort hlast x hx
    rw [List.pairwise_cons] at hsort
    obtain ⟨hc, hsort'⟩ := hsort
    cases l' with
    | nil =>
      simp at hlast
      subst hlast
      simp at hx
      subst hx
      exact le_refl _
    | cons d l'' =>
      rw [List.getLast?_cons_cons] at hlast
      rcases List.mem_cons.mp hx with rfl | hx'
      · exact le_of_lt (hc m (List.mem_of_getLast?_eq_some hlast))
      · exact ih hsort' hlast x hx'

lemma as_f64_eq_some {v : JsonValue} {x : Rat} (h : v.as_f64 = some x) :
    v = JsonValue.num x := by
  cases v <;> simp [JsonValue.as_f64] at h
  rw [h]

lemma evalCurrent_self (p : ControlPoint) (t : Int) :
    evalCurrent p (some p) t = p.value := by
  unfold evalCurrent
  split
  · simp
  · rfl

lemma evalCurrent_none (p : ControlPoint) (t : Int) :
    evalCurrent p none t = p.value := by
  unfold evalCurrent
  split <;> rfl

/-- The main refinement lemma for C1: on a time-sorted series the code
evaluator agrees with the specification evaluator. -/
lemma eval_eq_spec (ps : List ControlPoint) (t : Int) (hs : TimeSorted ps) :
    evaluate_control_points ps t = evalSpec ps t := by
  cases ps with
  | nil => rfl
  | cons p rest =>
    unfold TimeSorted at hs
    rcases hscan : scanPoints t (p :: rest) (none, none) with ⟨b, a⟩
    have hfst := scan_fst t (p :: rest) none none (by intro c hc; cases hc) hs
    have hsnd := scan_snd t (p :: rest) none none (by intro c hc; cases hc) hs
    rw [hscan] at hfst hsnd
    have hb : b = latestAtOrBefore (p :: rest) t := by
      rw [show (b, a).1 = b from rfl] at hfst
      rw [hfst]
      unfold latestAtOrBefore
      cases ((p :: rest).filter (fun q => q.time ≤ t)).getLast? <;> rfl
    have ha : a = firstAfter (p :: rest) t := hsnd
    unfold evaluate_control_points evalSpec
    rw [if_neg (by simp), hscan, ← hb, ← ha]
    cases hB : b with
    | none =>
      -- no point at or before t: every point is in the future
      have hallfut : ∀ x ∈ p :: rest, t < x.time := by
        rw [hB] at hb
        unfold latestAtOrBefore at hb
        have hnil : (p :: rest).filter (fun q => q.time ≤ t) = [] :=
          List.getLast?_eq_none_iff.mp hb.symm
        intro x hx
        have := List.filter_eq_nil_iff.mp hnil x hx
        simpa using this
      cases hA : a with
      | none =>
        rfl
      | some p0 =>
        show some (evalCurrent p0 (some p0) t) = some (evalSpecCurrent (p :: rest) p0 t)
        have hp0mem : p0 ∈ (p :: rest).filter (fun q => t < q.time) := by
          rw [hA] at ha
          unfold firstAfter at ha
          exact List.mem_of_mem_head? (Option.mem_def.mpr ha.symm)
        have hfut : t < p0.time := by
          have := List.mem_filter.mp hp0mem
          simpa using this.2
        rw [evalCurrent_self]
        unfold evalSpecCurrent
        cases hq : ((p :: rest).filter (fun q => p0.time < q.time)).head? with
        | none => rfl
        | some q =>
          have hqmem := List.mem_of_mem_head? (Option.mem_def.mpr hq)
          have hq2 : p0.time < q.time := by
            have := List.mem_filter.mp hqmem
            simpa using this.2
          dsimp only
          by_cases hmode : p0.mode = ControlMode.interpolate
          · rw [if_pos hmode]
            cases hv1 : p0.value.as_f64 with
            | none => cases hv2 : q.value.as_f64 <;> simp [hv1, hv2]
            | some pv =>
              cases hv2 : q.value.as_f64 with
              | none => simp [hv1, hv2]
              | some qv =>
                simp only [hv1, hv2]
                have hnum : ((t - p0.time : Int) : Rat) ≤ 0 := by
                  have : (t - p0.time : Int) ≤ 0 := by omega
                  exact_mod_cast this
                have hden : (0 : Rat) ≤ ((q.time - p0.time : Int) : Rat) := by
                  have : (0 : Int) ≤ q.time - p0.time := by omega
                  exact_mod_cast this
                have hratio : ((t - p0.time : Int) : Rat) / ((q.time - p0.time : Int) : Rat) ≤ 0 :=
                  div_nonpos_of_nonpos_of_nonneg hnum hden
                have hclamp : clampRat
                    (((t - p0.time : Int) : Rat) / ((q.time - p0.time : Int) : Rat)) 0 1 = 0 := by
                  unfold clampRat
                  rw [max_eq_right hratio, min_eq_left (by norm_num)]
                rw [hclamp, as_f64_eq_some hv1]
                norm_num
          · rw [if_neg hmode]
    | some p0 =>
      show some (evalCurrent p0 a t) = some (evalSpecCurrent (p :: rest) p0 t)
      have hb' : ((p :: rest).filter (fun q => q.time ≤ t)).getLast? = some p0 := by
        rw [hB] at hb
        unfold latestAtOrBefore at hb
        exact hb.symm
      have hp0mem : p0 ∈ (p :: rest).filter (fun q => q.time ≤ t) :=
        List.mem_of_getLast?_eq_some hb'
      have hp0t : p0.time ≤ t := by
        have := List.mem_filter.mp hp0mem
        simpa using this.2
      have hmax : ∀ x ∈ (p :: rest).filter (fun q => q.time ≤ t), x.time ≤ p0.time :=
        pairwise_getLast?_max p0 _ (List.Pairwise.filter _ hs) hb'
      have hQ : firstAfter (p :: rest) t =
          ((p :: rest).filter (fun q => p0.time < q.time)).head? := by
        unfold firstAfter
        congr 1
        apply List.filter_congr
        intro x hx
        simp only [decide_eq_decide]
        by_cases hxt : x.time ≤ t
        · have hx1 : x ∈ (p :: rest).filter (fun q => q.time ≤ t) :=
            List.mem_filter.mpr ⟨hx, by simpa using hxt⟩
          have := hmax x hx1
          omega
        · have := not_le.mp hxt
          omega
      cases hA : a with
      | none =>
        rw [evalCurrent_none]
        unfold evalSpecCurrent
        rw [← hQ, ← ha, hA]
      | some q =>
        have hqmem : q ∈ (p :: rest).filter (fun x => t < x.time) := by
          rw [hA] at ha
          unfold firstAfter at ha
          exact List.mem_of_mem_head? (Option.mem_def.mpr ha.symm)
        have hq2 : t < q.time := by
          have := List.mem_filter.mp hqmem
          simpa using this.2
        have htotal : 0 < q.time - p0.time := by omega
        have helapsed : max (t - p0.time) 0 = t - p0.time := max_eq_left (by omega)
        unfold evalCurrent evalSpecCurrent
        rw [← hQ, ← ha, hA]
        dsimp only
        by_cases hmode : p0.mode = ControlMode.interpolate
        · rw [if_pos hmode, if_pos hmode]
          simp only [if_pos htotal, helapsed]
          unfold interpolate_values clampRat
          cases hv1 : p0.value.as_f64 with
          | none => cases hv2 : q.value.as_f64 <;> simp [hv1, hv2]
          | some pv =>
            cases hv2 : q.value.as_f64 with
            | none => simp [hv1, hv2]
            | some qv => simp [hv1, hv2]
        · rw [if_neg hmode, if_neg hmode]

/-- Midpoint value of a numeric interpolate segment. -/
lemma eval_midpoint (p q : ControlPoint) (pv qv : Rat)
    (hlt : p.time < q.time) (heven : (p.time + q.time) % 2 = 0)
    (hmode : p.mode = ControlMode.interpolate)
    (hpv : p.value = JsonValue.num pv) (hqv : q.value = JsonValue.num qv) :
    evaluate_control_points [p, q] ((p.time + q.time) / 2) =
      some (JsonValue.num ((pv + qv) / 2)) := by
  set t := (p.time + q.time) / 2 with ht
  have h2 : 2 * (t - p.time) = q.time - p.time := by omega
  have hp_le : p.time ≤ t := by omega
  have hq_gt : ¬ q.time ≤ t := by omega
  have hscan : scanPoints t [p, q] (none, none) = (some p, some q) := by
    simp [scanPoints, updBefore, updAfter, hp_le, hq_gt]
  unfold evaluate_control_points
  rw [if_neg (by simp), hscan]
  show some (evalCurrent p (some q) t) = some (JsonValue.num ((pv + qv) / 2))
  unfold evalCurrent
  rw [if_pos hmode]
  dsimp only
  rw [if_pos (show (0:Int) < q.time - p.time by omega),
      max_eq_left (show (0:Int) ≤ t - p.time by omega)]
  unfold interpolate_values
  rw [hpv, hqv]
  dsimp only [JsonValue.as_f64]
  have hr : ((t - p.time : Int) : Rat) / ((q.time - p.time : Int) : Rat) = 1 / 2 := by
    have hden : ((q.time - p.time : Int) : Rat) ≠ 0 := by
      exact_mod_cast (show (q.time - p.time : Int) ≠ 0 by omega)
    rw [div_eq_div_iff hden (by norm_num)]
    have h2q : (2 : Rat) * (((t - p.time : Int)) : Rat) = ((q.time - p.time : Int) : Rat) := by
      exact_mod_cast h2
    linarith
  rw [hr]
  rw [show min (max ((1:Rat)/2) 0) 1 = 1/2 by norm_num]
  congr 2
  ring

/-- Claim C1: `evaluate_control_points` returns `None` exactly on the empty
series; otherwise it selects the latest point at or before `at` (else the
earliest future point) and returns its value, linearly interpolating
towards the next strictly later point by the clamped elapsed-time ratio
when the mode is interpolate and both endpoints are numeric. In
particular the empty, singleton and numeric-midpoint laws hold, and on an
all-`set` sorted series the semantics is the right-continuous step
function realized by `evalSpec`. -/
theorem C1_evaluate_control_points :
    (∀ t : Int, evaluate_control_points [] t = none)
  ∧ (∀ (ps : List ControlPoint) (t : Int), evaluate_control_points ps t = none ↔ ps = [])
  ∧ (∀ (p : ControlPoint) (t : Int), evaluate_control_points [p] t = some p.value)
  ∧ (∀ (ps : List ControlPoint) (t : Int), TimeSorted ps →
      evaluate_control_points ps t = evalSpec ps t)
  ∧ (∀ (p q : ControlPoint) (pv qv : Rat), p.time < q.time →
      (p.time + q.time) % 2 = 0 → p.mode = ControlMode.interpolate →
      p.value = JsonValue.num pv → q.value = JsonValue.num qv →
      evaluate_control_points [p, q] ((p.time + q.time) / 2) =
        some (JsonValue.num ((pv + qv) / 2))) := by
  refine ⟨fun _ => rfl, ?_, ?_, eval_eq_spec, eval_midpoint⟩
  · intro ps t
    cases ps with
    | nil => simp [evaluate_control_points]
    | cons p rest =>
      constructor
      · intro h
        have := eval_cons_isSome p rest t
        rw [h] at this
        simp at this
      · intro h
        simp at h
  · intro p t
    by_cases hpt : p.time ≤ t
    · have hscan : scanPoints t [p] (none, none) = (some p, none) := by
        simp [scanPoints, updBefore, hpt]
      unfold evaluate_control_points
      rw [if_neg (by simp), hscan]
      show some (evalCurrent p none t) = some p.value
      rw [evalCurrent_none]
    · have hscan : scanPoints t [p] (none, none) = (none, some p) := by
        simp [scanPoints, updAfter, hpt]
      unfold evaluate_control_points
      rw [if_neg (by simp), hscan]
      show some (evalCurrent p (some p) t) = some p.value
      rw [evalCurrent_self]

/-- Witness for C1 at concrete inputs: a sorted two-point interpolate
series evaluated at the midpoint, and agreement with the specification
evaluator on a concrete sorted series. -/
theorem C1_evaluate_control_points_witness :
    evaluate_control_points
      [⟨"a", 0, JsonValue.num 10, ControlMode.interpolate⟩,
       ⟨"b", 4, JsonValue.num 30, ControlMode.set⟩] 2 = some (JsonValue.num 20)
  ∧ evaluate_control_points
      [⟨"a", 0, JsonValue.num 10, ControlMode.set⟩,
       ⟨"b", 4, JsonValue.num 30, ControlMode.set⟩] 1 =
      evalSpec
        [⟨"a", 0, JsonValue.num 10, ControlMode.set⟩,
         ⟨"b", 4, JsonValue.num 30, ControlMode.set⟩] 1 := by
  constructor
  · have h := C1_evaluate_control_points.2.2.2.2
      ⟨"a", 0, JsonValue.num 10, ControlMode.interpolate⟩
      ⟨"b", 4, JsonValue.num 30, ControlMode.set⟩ 10 30
      (by decide) (by decide) rfl rfl rfl
    norm_num at h
    exact h
  · exact C1_evaluate_control_points.2.2.2.1 _ 1 (by decide)

/-! ## Schedule state machines (`nodes/source.rs`, `mixer.rs`,
`video_generator.rs`, `destination.rs`)

The per-kind `schedule_transition_due` functions of `SourceNode`,
`MixerNode` and `VideoGeneratorNode` have identical bodies in the source;
they are modelled by the shared `preroll_transition_due`, and each node
type wraps it below. `DestinationNode` has its own transition function
with no preroll lead. -/

/-- Rank used to prove that the `advance_schedule` loops terminate:
every due transition strictly increases it. -/
def State.rank : State → Nat
  | .Initial => 0
  | .Starting => 1
  | .Started => 2
  | .Stopping => 3
  | .Stopped => 4

/-- `PREROLL_LEAD_TIME_SECONDS = 10`, as `Duration::seconds(10)` in
milliseconds. -/
def preroll_lead_ms : Int := 10 * 1000

/-- `self.cue_time.map_or(true, |cue| now >= cue)`. -/
def cueReached (cue : Option Int) (now : Int) : Bool :=
  match cue with
  | some c => now ≥ c
  | none => true

/-- `self.end_time.is_some_and(|end| now >= end)`. -/
def endReached (et : Option Int) (now : Int) : Bool :=
  match et with
  | some e => now ≥ e
  | none => false

/-- Shared body of `schedule_transition_due` for sources, mixers and
video generators (preroll lead of 10 s before the cue). -/
def preroll_transition_due (cue et : Option Int) (now : Int) : State → Option State
  | .Initial =>
    match cue with
    | some c => if now ≥ c - preroll_lead_ms then some .Starting else none
    | none => some .Started
  | .Starting => if cueReached cue now then some .Started else none
  | .Started => if endReached et now then some .Stopping else none
  | .Stopping => some .Stopped
  | .Stopped => none

lemma preroll_rank_lt {cue et : Option Int} {now : Int} {st next : State}
    (h : preroll_transition_due cue et now st = some next) : st.rank < next.rank := by
  cases st with
  | Initial =>
    simp only [preroll_transition_due] at h
    cases cue with
    | none => cases h; decide
    | some c =>
      dsimp only at h
      by_cases hc : now ≥ c - preroll_lead_ms
      · rw [if_pos hc] at h; cases h; decide
      · rw [if_neg hc] at h; simp at h
  | Starting =>
    simp only [preroll_transition_due] at h
    by_cases hc : cueReached cue now = true
    · rw [if_pos hc] at h; cases h; decide
    · rw [if_neg hc] at h; simp at h
  | Started =>
    simp only [preroll_transition_due] at h
    by_cases hc : endReached et now = true
    · rw [if_pos hc] at h; cases h; decide
    · rw [if_neg hc] at h; simp at h
  | Stopping => cases h; decide
  | Stopped => cases h

/-- Fuel-bounded unfolding of the advance while-loop (preroll kinds). -/
def preroll_advance_go (cue et : Option Int) (now : Int) : Nat → State → State
  | 0, st => st
  | fuel + 1, st =>
    match preroll_transition_due cue et now st with
    | none => st
    | some next => if next = st then st else preroll_advance_go cue et now fuel next

lemma preroll_transition_ne_stopped {cue et : Option Int} {now : Int} {st next : State}
    (h : preroll_transition_due cue et now st = some next) : st ≠ State.Stopped := by
  rintro rfl
  cases h

lemma preroll_advance_go_high (cue et : Option Int) (now : Int) :
    ∀ (f1 : Nat) (st : State) (f2 : Nat), 4 - st.rank < f1 → 4 - st.rank < f2 →
    preroll_advance_go cue et now f1 st = preroll_advance_go cue et now f2 st := by
  intro f1
  induction f1 with
  | zero => intro st f2 h1 _; omega
  | succ a ih =>
    intro st f2 h1 h2
    cases f2 with
    | zero => omega
    | succ b =>
      simp only [preroll_advance_go]
      cases htr : preroll_transition_due cue et now st with
      | none => rfl
      | some next =>
        by_cases he : next = st
        · simp [he]
        · simp only [he, if_false]
          have hrank := preroll_rank_lt htr
          have hst : st.rank ≤ 3 := by
            have := preroll_transition_ne_stopped htr
            cases st <;> first | decide | simp at this
          have hnext4 : next.rank ≤ 4 := by cases next <;> decide
          exact ih next b (by omega) (by omega)

/-- The `while let Some(next_state) = self.schedule_transition_due(now)`
loop of `advance_schedule` for sources, mixers and video generators,
restricted to the state it computes (the loop body only assigns
`self.state`). Every due transition strictly increases `State.rank`
(`preroll_rank_lt`), so the unbounded Rust loop runs at most four
iterations: a fuel of 5 realizes it exactly, and
`preroll_advance_go_high` shows that any larger fuel computes the same
result. -/
def preroll_advance (cue et : Option Int) (now : Int) (st : State) : State :=
  preroll_advance_go cue et now 5 st

/-- `DestinationNode::schedule_transition_due`: no preroll lead, and
`Starting` always advances. -/
def dest_transition_due (cue et : Option Int) (now : Int) : State → Option State
  | .Initial => if cueReached cue now then some .Starting else none
  | .Starting => some .Started
  | .Started => if endReached et now then some .Stopping else none
  | .Stopping => some .Stopped
  | .Stopped => none

lemma dest_rank_lt {cue et : Option Int} {now : Int} {st next : State}
    (h : dest_transition_due cue et now st = some next) : st.rank < next.rank := by
  cases st with
  | Initial =>
    simp only [dest_transition_due] at h
    by_cases hc : cueReached cue now = true
    · rw [if_pos hc] at h; cases h; decide
    · rw [if_neg hc] at h; simp at h
  | Starting => cases h; decide
  | Started =>
    simp only [dest_transition_due] at h
    by_cases hc : endReached et now = true
    · rw [if_pos hc] at h; cases h; decide
    · rw [if_neg hc] at h; simp at h
  | Stopping => cases h; decide
  | Stopped => cases h

/-- Fuel-bounded unfolding of the destination advance loop. -/
def dest_advance_go (cue et : Option Int) (now : Int) : Nat → State → State
  | 0, st => st
  | fuel + 1, st =>
    match dest_transition_due cue et now st with
    | none => st
    | some next =>
      if next = st then st
      else if next = State.Stopping then State.Stopped
      else dest_advance_go cue et now fuel next

lemma dest_transition_ne_stopped {cue et : Option Int} {now : Int} {st next : State}
    (h : dest_transition_due cue et now st = some next) : st ≠ State.Stopped := by
  rintro rfl
  cases h

lemma dest_advance_go_high (cue et : Option Int) (now : Int) :
    ∀ (f1 : Nat) (st : State) (f2 : Nat), 4 - st.rank < f1 → 4 - st.rank < f2 →
    dest_advance_go cue et now f1 st = dest_advance_go cue et now f2 st := by
  intro f1
  induction f1 with
  | zero => intro st f2 h1 _; omega
  | succ a ih =>
    intro st f2 h1 h2
    cases f2 with
    | zero => omega
    | succ b =>
      simp only [dest_advance_go]
      cases htr : dest_transition_due cue et now st with
      | none => rfl
      | some next =>
        by_cases he : next = st
        · simp [he]
        · simp only [he, if_false]
          by_cases hs : next = State.Stopping
          · simp [hs]
          · simp only [hs, if_false]
            have hrank := dest_rank_lt htr
            have hst : st.rank ≤ 3 := by
              have := dest_transition_ne_stopped htr
              cases st <;> first | decide | simp at this
            have hnext4 : next.rank ≤ 4 := by cases next <;> decide
            exact ih next b (by omega) (by omega)

/-- The `advance_schedule` loop of `DestinationNode`: when the next state
is `Stopping` the code assigns `Stopping`, calls `stop()` — which with no
live pipeline returns from `wait_for_eos_on_stop` immediately and sets the
state to `Stopped` — and breaks, so the loop result is `Stopped` there.
As for the preroll kinds, due transitions strictly increase `State.rank`
(`dest_rank_lt`), so a fuel of 5 realizes the unbounded loop exactly
(`dest_advance_go_high`). -/
def dest_advance_loop (cue et : Option Int) (now : Int) (st : State) : State :=
  dest_advance_go cue et now 5 st

/-! ### Evaluation lemmas for the advance loops -/

lemma preroll_advance_of_none {cue et : Option Int} {now : Int} {st : State}
    (h : preroll_transition_due cue et now st = none) :
    preroll_advance cue et now st = st := by
  unfold preroll_advance preroll_advance_go
  rw [h]

lemma preroll_advance_of_some {cue et : Option Int} {now : Int} {st next : State}
    (h : preroll_transition_due cue et now st = some next) (hne : next ≠ st) :
    preroll_advance cue et now st = preroll_advance cue et now next := by
  show preroll_advance_go cue et now 5 st = preroll_advance cue et now next
  rw [show (5 : Nat) = 4 + 1 from rfl]
  simp only [preroll_advance_go, h, if_neg hne]
  have hrank := preroll_rank_lt h
  have hnext4 : next.rank ≤ 4 := by cases next <;> decide
  have h1 : next.rank ≥ 1 := by
    have : st.rank ≥ 0 := Nat.zero_le _
    omega
  exact preroll_advance_go_high cue et now 4 next 5 (by omega) (by omega)

lemma preroll_advance_stopped (cue et : Option Int) (now : Int) :
    preroll_advance cue et now .Stopped = .Stopped :=
  preroll_advance_of_none rfl

lemma preroll_advance_stopping (cue et : Option Int) (now : Int) :
    preroll_advance cue et now .Stopping = .Stopped := by
  rw [preroll_advance_of_some (show preroll_transition_due cue et now .Stopping =
        some .Stopped from rfl) (by decide), preroll_advance_stopped]

lemma preroll_advance_started (cue et : Option Int) (now : Int) :
    preroll_advance cue et now .Started =
      (if endReached et now then .Stopped else .Started) := by
  by_cases he : endReached et now = true
  · rw [preroll_advance_of_some (show preroll_transition_due cue et now .Started =
        some .Stopping by simp [preroll_transition_due, he]) (by decide),
      preroll_advance_stopping, if_pos he]
  · rw [preroll_advance_of_none (by simp [preroll_transition_due, he]), if_neg he]

lemma preroll_advance_starting (cue et : Option Int) (now : Int) :
    preroll_advance cue et now .Starting =
      (if cueReached cue now then (if endReached et now then .Stopped else .Started)
       else .Starting) := by
  by_cases hc : cueReached cue now = true
  · rw [preroll_advance_of_some (show preroll_transition_due cue et now .Starting =
        some .Started by simp [preroll_transition_due, hc]) (by decide),
      preroll_advance_started, if_pos hc]
  · rw [preroll_advance_of_none (by simp [preroll_transition_due, hc]), if_neg hc]

lemma preroll_advance_initial_none (et : Option Int) (now : Int) :
    preroll_advance none et now .Initial =
      (if endReached et now then .Stopped else .Started) := by
  rw [preroll_advance_of_some (show preroll_transition_due none et now .Initial =
        some .Started from rfl) (by decide)]
  exact preroll_advance_started none et now

lemma preroll_advance_initial_some (c : Int) (et : Option Int) (now : Int) :
    preroll_advance (some c) et now .Initial =
      (if now ≥ c - preroll_lead_ms then
        (if now ≥ c then (if endReached et now then .Stopped else .Started) else .Starting)
       else .Initial) := by
  by_cases hc : now ≥ c - preroll_lead_ms
  · rw [preroll_advance_of_some (show preroll_transition_due (some c) et now .Initial =
        some .Starting by simp [preroll_transition_due, hc]) (by decide),
      preroll_advance_starting, if_pos hc]
    by_cases h2 : now ≥ c
    · rw [if_pos h2, if_pos (show cueReached (some c) now = true by simp [cueReached, h2])]
    · rw [if_neg h2, if_neg (show ¬ cueReached (some c) now = true by simp [cueReached, h2])]
  · rw [preroll_advance_of_none (by simp [preroll_transition_due, hc]), if_neg hc]

lemma dest_advance_of_none {cue et : Option Int} {now : Int} {st : State}
    (h : dest_transition_due cue et now st = none) :
    dest_advance_loop cue et now st = st := by
  unfold dest_advance_loop dest_advance_go
  rw [h]

lemma dest_advance_of_some {cue et : Option Int} {now : Int} {st next : State}
    (h : dest_transition_due cue et now st = some next) (hne : next ≠ st)
    (hns : next ≠ State.Stopping) :
    dest_advance_loop cue et now st = dest_advance_loop cue et now next := by
  show dest_advance_go cue et now 5 st = dest_advance_loop cue et now next
  rw [show (5 : Nat) = 4 + 1 from rfl]
  simp only [dest_advance_go, h, if_neg hne, if_neg hns]
  have hrank := dest_rank_lt h
  have hnext4 : next.rank ≤ 4 := by cases next <;> decide
  have h1 : next.rank ≥ 1 := by
    have : st.rank ≥ 0 := Nat.zero_le _
    omega
  exact dest_advance_go_high cue et now 4 next 5 (by omega) (by omega)

lemma dest_advance_of_stopping {cue et : Option Int} {now : Int} {st : State}
    (h : dest_transition_due cue et now st = some State.Stopping)
    (hne : State.Stopping ≠ st) :
    dest_advance_loop cue et now st = State.Stopped := by
  show dest_advance_go cue et now 5 st = State.Stopped
  rw [show (5 : Nat) = 4 + 1 from rfl]
  simp only [dest_advance_go, h, if_neg hne, if_pos rfl]
  simp

lemma dest_advance_stopped (cue et : Option Int) (now : Int) :
    dest_advance_loop cue et now .Stopped = .Stopped :=
  dest_advance_of_none rfl

lemma dest_advance_stopping (cue et : Option Int) (now : Int) :
    dest_advance_loop cue et now .Stopping = .Stopped := by
  rw [dest_advance_of_some (show dest_transition_due cue et now .Stopping =
        some .Stopped from rfl) (by decide) (by decide), dest_advance_stopped]

lemma dest_advance_started (cue et : Option Int) (now : Int) :
    dest_advance_loop cue et now .Started =
      (if endReached et now then .Stopped else .Started) := by
  by_cases he : endReached et now = true
  · rw [dest_advance_of_stopping (by simp [dest_transition_due, he]) (by decide), if_pos he]
  · rw [dest_advance_of_none (by simp [dest_transition_due, he]), if_neg he]

lemma dest_advance_starting (cue et : Option Int) (now : Int) :
    dest_advance_loop cue et now .Starting =
      (if endReached et now then .Stopped else .Started) := by
  rw [dest_advance_of_some (show dest_transition_due cue et now .Starting =
        some .Started from rfl) (by decide) (by decide), dest_advance_started]

lemma dest_advance_initial (cue et : Option Int) (now : Int) :
    dest_advance_loop cue et now .Initial =
      (if cueReached cue now then (if endReached et now then .Stopped else .Started)
       else .Initial) := by
  by_cases hc : cueReached cue now = true
  · rw [dest_advance_of_some (show dest_transition_due cue et now .Initial =
        some .Starting by simp [dest_transition_due, hc]) (by decide) (by decide),
      dest_advance_starting, if_pos hc]
  · rw [dest_advance_of_none (by simp [dest_transition_due, hc]), if_neg hc]

/-! ## String maps

Model of `HashMap<String, V>`: an association list with unique keys;
`insert` replaces in place or appends, mirroring entry semantics. The
model fixes an iteration order (list order) where the Rust map leaves it
unspecified. -/

def SMap (α : Type) : Type := List (String × α)

instance [DecidableEq α] : DecidableEq (SMap α) := by
  unfold SMap; infer_instance

instance [Repr α] : Repr (SMap α) := by
  unfold SMap; infer_instance

def SMap.nil {α : Type} : SMap α := []

def SMap.entries {α : Type} (m : SMap α) : List (String × α) := m

def SMap.get? {α : Type} (m : SMap α) (k : String) : Option α :=
  (SMap.entries m |>.find? (fun e => e.1 == k)).map Prod.snd

def SMap.containsKey {α : Type} (m : SMap α) (k : String) : Bool :=
  SMap.entries m |>.any (fun e => e.1 == k)

def SMap.insert {α : Type} (m : SMap α) (k : String) (v : α) : SMap α :=
  if SMap.containsKey m k then
    SMap.entries m |>.map (fun e => if e.1 == k then (k, v) else e)
  else SMap.entries m ++ [(k, v)]

def SMap.erase {α : Type} (m : SMap α) (k : String) : SMap α :=
  SMap.entries m |>.filter (fun e => e.1 != k)

/-- `get_mut` followed by a mutation: update the value at `k` when
present, otherwise do nothing. -/
def SMap.update {α : Type} (m : SMap α) (k : String) (f : α → α) : SMap α :=
  SMap.entries m |>.map (fun e => if e.1 == k then (e.1, f e.2) else e)

def SMap.keys {α : Type} (m : SMap α) : List String :=
  SMap.entries m |>.map Prod.fst

def SMap.mapValues {α : Type} (m : SMap α) (f : α → α) : SMap α :=
  SMap.entries m |>.map (fun e => (e.1, f e.2))

def SMap.isEmpty {α : Type} (m : SMap α) : Bool :=
  SMap.entries m |>.isEmpty

/-- `BTreeSet<String>::insert`: ordered insertion without duplicates. -/
def btreeInsert : List String → String → List String
  | [], x => [x]
  | y :: rest, x =>
    if x < y then x :: y :: rest
    else if x = y then y :: rest
    else y :: btreeInsert rest x

/-- `BTreeSet<String>::remove`. -/
def btreeErase (l : List String) (x : String) : List String :=
  l.filter (fun y => y ≠ x)

/-- Substring containment, modelling `str::contains`. -/
def strContainsSub (s sub : String) : Bool :=
  decide (List.IsInfix sub.toList s.toList)

/-- Model of the `f64 as i64` cast: truncation towards zero. -/
def ratTrunc (q : Rat) : Int :=
  if 0 ≤ q then Rat.floor q else -(Rat.floor (-q))

/-- `value.as_i64().or_else(|| value.as_f64().map(|v| v as i64))`. -/
def JsonValue.as_i64_lossy (v : JsonValue) : Option Int :=
  match v.as_i64 with
  | some n => some n
  | none => v.as_f64.map ratTrunc

/-! ## Protocol info records (`protocol.rs`) -/

structure SourceInfo where
  uri : String
  video_consumer_slot_ids : Option (List String)
  audio_consumer_slot_ids : Option (List String)
  cue_time : Option Int
  end_time : Option Int
  state : State
  deriving DecidableEq, Repr

/-- `protocol::DestinationFamily`. -/
inductive DestinationFamily where
  | Rtmp (uri : String) : DestinationFamily
  | Udp (host : String) : DestinationFamily
  | LocalFile (base_name : String) (max_size_time : Option Nat) : DestinationFamily
  | LocalPlayback : DestinationFamily
  deriving DecidableEq, Repr

structure DestinationInfo where
  family : DestinationFamily
  audio_slot_id : Option String
  video_slot_id : Option String
  cue_time : Option Int
  end_time : Option Int
  state : State
  deriving DecidableEq, Repr

structure MixerSlotInfo where
  volume : Rat
  deriving DecidableEq, Repr

structure MixerInfo where
  slots : SMap MixerSlotInfo
  video_consumer_slot_ids : Option (List String)
  audio_consumer_slot_ids : Option (List String)
  cue_time : Option Int
  end_time : Option Int
  state : State
  settings : SMap JsonValue
  control_points : SMap (List ControlPoint)
  slot_settings : SMap (SMap JsonValue)
  slot_control_points : SMap (SMap (List ControlPoint))
  deriving DecidableEq, Repr

inductive NodeInfo where
  | Source (info : SourceInfo) : NodeInfo
  | Destination (info : DestinationInfo) : NodeInfo
  | Mixer (info : MixerInfo) : NodeInfo
  deriving DecidableEq, Repr

structure Info where
  nodes : SMap NodeInfo
  deriving DecidableEq, Repr

inductive CommandResult where
  | Error (msg : String) : CommandResult
  | Success : CommandResult
  | Info (info : Info) : CommandResult
  deriving DecidableEq, Repr

/-- `protocol::Command`. The wire fields named `audio` and `video` are
modelled as `audio_enabled` / `video_enabled`. -/
inductive Command where
  | CreateVideoGenerator (id : String) : Command
  | CreateSource (id uri : String) (audio_enabled video_enabled : Bool) : Command
  | CreateDestination (id : String) (family : DestinationFamily)
      (audio_enabled video_enabled : Bool) : Command
  | CreateMixer (id : String) (config : Option (SMap JsonValue))
      (audio_enabled video_enabled : Bool) : Command
  | Connect (link_id src_id sink_id : String) (audio_enabled video_enabled : Bool)
      (config : Option (SMap JsonValue)) : Command
  | Start (id : String) (cue_time end_time : Option Int) : Command
  | Reschedule (id : String) (cue_time end_time : Option Int) : Command
  | Remove (id : String) : Command
  | Disconnect (link_id : String) : Command
  | GetInfo (id : Option String) : Command
  | AddControlPoint (controllee_id property : String) (control_point : ControlPoint) : Command
  | RemoveControlPoint (id controllee_id property : String) : Command
  deriving DecidableEq, Repr

/-! ## Source node (`nodes/source.rs`)

The live pipeline is not modelled: with the streaming framework
uninitialized `sync_live_pipeline` returns `Ok(())` immediately and
`live_pipeline` stays `None` (`gst_initialized` below is `false`). -/

inductive SourcePipelineStage where
  | Idle | Prerolling | Playing
  deriving DecidableEq, Repr

structure SourcePipelineProfile where
  uri : String
  manual_unblock : Bool
  immediate_fallback : Bool
  elements : List String
  stage : SourcePipelineStage
  deriving DecidableEq, Repr

def SourcePipelineProfile.new (uri : String) : SourcePipelineProfile :=
  { uri := uri
    manual_unblock := true
    immediate_fallback := true
    elements := ["fallbacksrc", "deinterlace", "audioconvert", "level", "appsink"]
    stage := SourcePipelineStage.Idle }

structure SourceNode where
  id : String
  uri : String
  audio_enabled : Bool
  video_enabled : Bool
  audio_consumer_slot_ids : List String
  video_consumer_slot_ids : List String
  cue_time : Option Int
  end_time : Option Int
  state : State
  pipeline : SourcePipelineProfile
  last_error : Option String
  deriving DecidableEq, Repr

def SourceNode.new (id uri : String) (audio_enabled video_enabled : Bool) : SourceNode :=
  { id := id, uri := uri
    audio_enabled := audio_enabled, video_enabled := video_enabled
    audio_consumer_slot_ids := [], video_consumer_slot_ids := []
    cue_time := none, end_time := none
    state := State.Initial
    pipeline := SourcePipelineProfile.new uri
    last_error := none }

def SourceNode.schedule_transition_due (n : SourceNode) (now : Int) : Option State :=
  preroll_transition_due n.cue_time n.end_time now n.state

def stageOfPrerollState : State → SourcePipelineStage
  | .Initial | .Stopping | .Stopped => .Idle
  | .Starting => .Prerolling
  | .Started => .Playing

def SourceNode.apply_state_to_stage (n : SourceNode) : SourceNode :=
  { n with pipeline := { n.pipeline with stage := stageOfPrerollState n.state } }

def SourceNode.advance_schedule (n : SourceNode) (now : Int) : SourceNode :=
  SourceNode.apply_state_to_stage
    { n with state := preroll_advance n.cue_time n.end_time now n.state }

/-- `refresh`: advance, then `sync_live_pipeline` (a no-op returning `Ok`
with the framework uninitialized). -/
def SourceNode.refresh (n : SourceNode) (now : Int) : Except String SourceNode :=
  Except.ok (n.advance_schedule now)

def SourceNode.add_consumer_link (n : SourceNode) (link_id : String)
    (audio_enabled video_enabled : Bool) : SourceNode :=
  let n := if audio_enabled then
    { n with audio_consumer_slot_ids := btreeInsert n.audio_consumer_slot_ids link_id }
  else n
  if video_enabled then
    { n with video_consumer_slot_ids := btreeInsert n.video_consumer_slot_ids link_id }
  else n

def SourceNode.remove_consumer_link (n : SourceNode) (link_id : String) : SourceNode :=
  { n with audio_consumer_slot_ids := btreeErase n.audio_consumer_slot_ids link_id
           video_consumer_slot_ids := btreeErase n.video_consumer_slot_ids link_id }

def SourceNode.schedule (n : SourceNode) (cue et : Option Int) (now : Int) :
    Except String Unit × SourceNode :=
  let n := { n with cue_time := cue, end_time := et, last_error := none }
  let n := if n.state = State.Starting ∨ n.state = State.Stopping ∨ n.state = State.Stopped
    then { n with state := State.Initial } else n
  (Except.ok (), n.advance_schedule now)

def SourceNode.stop (n : SourceNode) : SourceNode :=
  { n with pipeline := { n.pipeline with stage := SourcePipelineStage.Idle }
           state := State.Stopped }

def SourceNode.mark_error (n : SourceNode) (msg : String) : SourceNode :=
  { n with last_error := some msg }

def SourceNode.as_info (n : SourceNode) : NodeInfo :=
  NodeInfo.Source
    { uri := n.uri
      video_consumer_slot_ids := some n.video_consumer_slot_ids
      audio_consumer_slot_ids := some n.audio_consumer_slot_ids
      cue_time := n.cue_time, end_time := n.end_time, state := n.state }

/-! ## Video-generator node (`nodes/video_generator.rs`) -/

inductive VideoGeneratorStage where
  | Idle | Prerolling | Playing
  deriving DecidableEq, Repr

structure VideoGeneratorPipelineProfile where
  elements : List String
  pattern : String
  is_live : Bool
  flip : Bool
  stage : VideoGeneratorStage
  deriving DecidableEq, Repr

def VideoGeneratorPipelineProfile.new : VideoGeneratorPipelineProfile :=
  { elements := ["videotestsrc", "deinterlace", "appsink"]
    pattern := "ball", is_live := true, flip := true
    stage := VideoGeneratorStage.Idle }

structure VideoGeneratorNode where
  id : String
  audio_enabled : Bool
  video_enabled : Bool
  audio_consumer_slot_ids : List String
  video_consumer_slot_ids : List String
  cue_time : Option Int
  end_time : Option Int
  state : State
  pipeline : VideoGeneratorPipelineProfile
  last_error : Option String
  deriving DecidableEq, Repr

def VideoGeneratorNode.new (id : String) : VideoGeneratorNode :=
  { id := id
    audio_enabled := false, video_enabled := true
    audio_consumer_slot_ids := [], video_consumer_slot_ids := []
    cue_time := none, end_time := none
    state := State.Initial
    pipeline := VideoGeneratorPipelineProfile.new
    last_error := none }

def VideoGeneratorNode.schedule_transition_due (n : VideoGeneratorNode) (now : Int) :
    Option State :=
  preroll_transition_due n.cue_time n.end_time now n.state

def stageOfVideoGenState : State → VideoGeneratorStage
  | .Initial | .Stopping | .Stopped => .Idle
  | .Starting => .Prerolling
  | .Started => .Playing

def VideoGeneratorNode.apply_state_to_stage (n : VideoGeneratorNode) : VideoGeneratorNode :=
  { n with pipeline := { n.pipeline with stage := stageOfVideoGenState n.state } }

def VideoGeneratorNode.advance_schedule (n : VideoGeneratorNode) (now : Int) :
    VideoGeneratorNode :=
  VideoGeneratorNode.apply_state_to_stage
    { n with state := preroll_advance n.cue_time n.end_time now n.state }

def VideoGeneratorNode.refresh (n : VideoGeneratorNode) (now : Int) :
    Except String VideoGeneratorNode :=
  Except.ok (n.advance_schedule now)

def VideoGeneratorNode.add_consumer_link (n : VideoGeneratorNode) (link_id : String)
    (audio_enabled video_enabled : Bool) : VideoGeneratorNode :=
  let n := if audio_enabled then
    { n with audio_consumer_slot_ids := btreeInsert n.audio_consumer_slot_ids link_id }
  else n
  if video_enabled then
    { n with video_consumer_slot_ids := btreeInsert n.video_consumer_slot_ids link_id }
  else n

def VideoGeneratorNode.remove_consumer_link (n : VideoGeneratorNode) (link_id : String) :
    VideoGeneratorNode :=
  { n with audio_consumer_slot_ids := btreeErase n.audio_consumer_slot_ids link_id
           video_consumer_slot_ids := btreeErase n.video_consumer_slot_ids link_id }

def VideoGeneratorNode.schedule (n : VideoGeneratorNode) (cue et : Option Int) (now : Int) :
    Except String Unit × VideoGeneratorNode :=
  let n := { n with cue_time := cue, end_time := et, last_error := none }
  let n := if n.state = State.Starting ∨ n.state = State.Stopping ∨ n.state = State.Stopped
    then { n with state := State.Initial } else n
  (Except.ok (), n.advance_schedule now)

def VideoGeneratorNode.stop (n : VideoGeneratorNode) : VideoGeneratorNode :=
  { n with pipeline := { n.pipeline with stage := VideoGeneratorStage.Idle }
           state := State.Stopped }

def VideoGeneratorNode.mark_error (n : VideoGeneratorNode) (msg : String) :
    VideoGeneratorNode :=
  { n with last_error := some msg }

/-- `as_compatible_source_info`: a video generator is reported as a
source with the synthetic `videogenerator://` URI. -/
def VideoGeneratorNode.as_compatible_source_info (n : VideoGeneratorNode) : NodeInfo :=
  NodeInfo.Source
    { uri := "videogenerator://" ++ n.id
      video_consumer_slot_ids := some n.video_consumer_slot_ids
      audio_consumer_slot_ids := some n.audio_consumer_slot_ids
      cue_time := n.cue_time, end_time := n.end_time, state := n.state }

/-! ## Destination node (`nodes/destination.rs`) -/

inductive DestinationPipelineStage where
  | Idle | Scheduled | Playing
  deriving DecidableEq, Repr

structure DestinationPipelineProfile where
  family : DestinationFamily
  elements : List String
  wait_for_eos_on_stop : Bool
  stage : DestinationPipelineStage
  deriving DecidableEq, Repr

/-- `DestinationPipelineProfile::from_family`. -/
def DestinationPipelineProfile.from_family (family : DestinationFamily)
    (audio_enabled video_enabled : Bool) : DestinationPipelineProfile :=
  let elements : List String :=
    match family with
    | DestinationFamily.Rtmp _ =>
      ["flvmux", "queue", "rtmp2sink", "videoconvert", "timecodestamper",
       "timeoverlay", "h264enc", "h264parse", "audioconvert", "audioresample",
       "avenc_aac"]
    | DestinationFamily.Udp _ =>
      ["mpegtsmux", "udpsink", "videoconvert", "h264enc", "h264parse",
       "audioconvert", "audioresample", "avenc_aac"]
    | DestinationFamily.LocalFile _ _ =>
      ["splitmuxsink", "multiqueue", "videoconvert", "h264enc", "h264parse",
       "audioconvert", "audioresample", "avenc_aac"]
    | DestinationFamily.LocalPlayback =>
      ["autovideosink", "autoaudiosink", "videoconvert", "audioconvert",
       "audioresample", "queue"]
  let elements := if audio_enabled then elements
    else elements.filter (fun el => ¬ strContainsSub el "audio")
  let elements := if video_enabled then elements
    else elements.filter (fun el => ¬ (strContainsSub el "video" ∨ strContainsSub el "h264"))
  { family := family, elements := elements
    wait_for_eos_on_stop := true
    stage := DestinationPipelineStage.Idle }

structure DestinationNode where
  id : String
  family : DestinationFamily
  audio_enabled : Bool
  video_enabled : Bool
  audio_slot_id : Option String
  video_slot_id : Option String
  cue_time : Option Int
  end_time : Option Int
  state : State
  pipeline : Option DestinationPipelineProfile
  last_error : Option String
  deriving DecidableEq, Repr

def DestinationNode.new (id : String) (family : DestinationFamily)
    (audio_enabled video_enabled : Bool) : DestinationNode :=
  { id := id, family := family
    audio_enabled := audio_enabled, video_enabled := video_enabled
    audio_slot_id := none, video_slot_id := none
    cue_time := none, end_time := none
    state := State.Initial
    pipeline := none
    last_error := none }

def DestinationNode.schedule_transition_due (d : DestinationNode) (now : Int) :
    Option State :=
  dest_transition_due d.cue_time d.end_time now d.state

def DestinationNode.apply_state_to_stage (d : DestinationNode) : DestinationNode :=
  { d with pipeline := d.pipeline.map (fun p =>
      { p with stage :=
          match d.state with
          | .Initial | .Stopping | .Stopped => DestinationPipelineStage.Idle
          | .Starting | .Started => DestinationPipelineStage.Playing }) }

/-- `advance_schedule`: the loop (`dest_advance_loop`, which folds the
`stop()` call on reaching `Stopping` into the final `Stopped`) followed by
`apply_state_to_stage`. -/
def DestinationNode.advance_schedule (d : DestinationNode) (now : Int) : DestinationNode :=
  DestinationNode.apply_state_to_stage
    { d with state := dest_advance_loop d.cue_time d.end_time now d.state }

/-- `refresh`: advance, then `sync_live_pipeline` (no-op `Ok` with the
framework uninitialized). -/
def DestinationNode.refresh (d : DestinationNode) (now : Int) :
    Except String DestinationNode :=
  Except.ok (d.advance_schedule now)

/-- `connect_input`: claims the single audio and/or video slot; note the
audio slot is assigned before the video slot is checked. -/
def DestinationNode.connect_input (d : DestinationNode) (link_id : String)
    (audio_enabled video_enabled : Bool) : Except String Unit × DestinationNode :=
  if audio_enabled ∧ d.audio_slot_id.isSome then
    (Except.error ("Destination " ++ d.id ++ " already has an audio input slot"), d)
  else
    let d := if audio_enabled then { d with audio_slot_id := some link_id } else d
    if video_enabled ∧ d.video_slot_id.isSome then
      (Except.error ("Destination " ++ d.id ++ " already has a video input slot"), d)
    else
      let d := if video_enabled then { d with video_slot_id := some link_id } else d
      (Except.ok (), d)

def DestinationNode.disconnect_input (d : DestinationNode) (link_id : String) :
    DestinationNode :=
  let d := if d.audio_slot_id = some link_id then { d with audio_slot_id := none } else d
  if d.video_slot_id = some link_id then { d with video_slot_id := none } else d

/-- `ensure_start_ready`: every enabled medium needs its slot connected. -/
def DestinationNode.ensure_start_ready (d : DestinationNode) : Except String Unit :=
  if d.audio_enabled ∧ d.audio_slot_id = none then
    Except.error ("Destination " ++ d.id ++
      " must have its audio slot connected before starting")
  else if d.video_enabled ∧ d.video_slot_id = none then
    Except.error ("Destination " ++ d.id ++
      " must have its video slot connected before starting")
  else Except.ok ()

/-- `schedule`: validates the slots, then installs the schedule and the
pipeline profile and advances (`sync_live_pipeline` is a no-op `Ok`). -/
def DestinationNode.schedule (d : DestinationNode) (cue et : Option Int) (now : Int) :
    Except String Unit × DestinationNode :=
  match d.ensure_start_ready with
  | Except.error e => (Except.error e, d)
  | Except.ok _ =>
    let d := { d with cue_time := cue, end_time := et, last_error := none }
    let d := if d.state = State.Starting ∨ d.state = State.Stopping ∨ d.state = State.Stopped
      then { d with state := State.Initial } else d
    let d := { d with
      pipeline := some (DestinationPipelineProfile.from_family d.family
        d.audio_enabled d.video_enabled) }
    (Except.ok (), d.advance_schedule now)

/-- `stop`: `wait_for_eos_on_stop` returns immediately with no live
pipeline; teardown is a no-op; the state becomes `Stopped` and the profile
stage `Idle`. -/
def DestinationNode.stop (d : DestinationNode) : DestinationNode :=
  { d with state := State.Stopped
           pipeline := d.pipeline.map (fun p => { p with stage := DestinationPipelineStage.Idle }) }

def DestinationNode.mark_error (d : DestinationNode) (msg : String) : DestinationNode :=
  { d with last_error := some msg }

def DestinationNode.as_info (d : DestinationNode) : NodeInfo :=
  NodeInfo.Destination
    { family := d.family
      audio_slot_id := d.audio_slot_id, video_slot_id := d.video_slot_id
      cue_time := d.cue_time, end_time := d.end_time, state := d.state }

/-! ## Mixer node (`nodes/mixer.rs`) -/

inductive MixerPipelineStage where
  | Idle | Starting | Playing
  deriving DecidableEq, Repr

structure MixerPipelineProfile where
  video_branch_elements : List String
  audio_branch_elements : List String
  width : Int
  height : Int
  sample_rate : Int
  fallback_image : String
  fallback_timeout_ms : Int
  stage : MixerPipelineStage
  deriving DecidableEq, Repr

/-- `settings.get(k).and_then(as_i64).or_else(as_f64 as i64).unwrap_or(dflt)`. -/
def settingNum (settings : SMap JsonValue) (k : String) (dflt : Int) : Int :=
  match SMap.get? settings k with
  | some v => (v.as_i64_lossy).getD dflt
  | none => dflt

/-- `MixerPipelineProfile::from_settings`. -/
def MixerPipelineProfile.from_settings (settings : SMap JsonValue)
    (audio_enabled video_enabled : Bool) (stage : MixerPipelineStage) :
    MixerPipelineProfile :=
  { width := settingNum settings "width" 1920
    height := settingNum settings "height" 1080
    sample_rate := settingNum settings "sample-rate" 48000
    fallback_timeout_ms := settingNum settings "fallback-timeout" 500
    fallback_image :=
      ((SMap.get? settings "fallback-image").bind JsonValue.as_str).getD ""
    video_branch_elements :=
      if video_enabled then ["compositor", "capsfilter", "queue", "appsink"] else []
    audio_branch_elements :=
      if audio_enabled then ["audiomixer", "audioconvert", "audioresample", "appsink"]
      else []
    stage := stage }

/-- `parse_slot_config_key`: split `media::property`; `splitn(2, "::")`. -/
def parse_slot_config_key (property : String) : Except String (Bool × String) :=
  match property.splitOn "::" with
  | [_] => Except.error "Slot property name must be in form media-type::property-name"
  | media :: rest =>
    let prop := String.intercalate "::" rest
    if media = "video" then Except.ok (true, prop)
    else if media = "audio" then Except.ok (false, prop)
    else Except.error "Slot property media type must be one of [audio, video]"
  | [] => Except.error "Slot property name must be in form media-type::property-name"

/-- `validate_setting_value` (`mixer.rs`). -/
def validate_setting_value (name : String) (value : JsonValue) : Except String Unit :=
  match name with
  | "width" | "height" | "sample-rate" | "fallback-timeout" =>
    if value.is_number then Except.ok ()
    else Except.error ("Setting `" ++ name ++ "` expects a numeric value")
  | "fallback-image" =>
    if value.is_string then Except.ok ()
    else Except.error "Setting `fallback-image` expects a string value"
  | _ => Except.error ("No setting with name " ++ name ++ " on mixers")

/-- `validate_slot_value` (`mixer.rs`). -/
def validate_slot_value (is_video : Bool) (property : String) (value : JsonValue) :
    Except String Unit :=
  if is_video then
    match property with
    | "x" | "y" | "width" | "height" | "zorder" | "alpha" =>
      if value.is_number then Except.ok ()
      else Except.error ("video::" ++ property ++ " expects a numeric value")
    | _ => Except.ok ()
  else
    match property with
    | "volume" =>
      if value.is_number then Except.ok ()
      else Except.error "audio::volume expects a numeric value"
    | _ => Except.ok ()

structure MixerNode where
  id : String
  audio_enabled : Bool
  video_enabled : Bool
  slots : SMap MixerSlotInfo
  video_consumer_slot_ids : List String
  audio_consumer_slot_ids : List String
  cue_time : Option Int
  end_time : Option Int
  state : State
  settings : SMap JsonValue
  control_points : SMap (List ControlPoint)
  slot_settings : SMap (SMap JsonValue)
  slot_control_points : SMap (SMap (List ControlPoint))
  pipeline : MixerPipelineProfile
  last_error : Option String
  deriving DecidableEq, Repr

/-- The `for (key, value) in cfg` validation loop of `MixerNode::new`. -/
def apply_mixer_config : SMap JsonValue → List (String × JsonValue) →
    Except String (SMap JsonValue)
  | settings, [] => Except.ok settings
  | settings, (k, v) :: rest =>
    match validate_setting_value k v with
    | Except.error e => Except.error e
    | Except.ok _ => apply_mixer_config (SMap.insert settings k v) rest

/-- The default settings bag of `MixerNode::new`, in source order. -/
def mixerDefaultSettings : SMap JsonValue :=
  [("width", JsonValue.num 1920), ("height", JsonValue.num 1080),
   ("sample-rate", JsonValue.num 48000), ("fallback-image", JsonValue.str ""),
   ("fallback-timeout", JsonValue.num 500)]

def MixerNode.new (id : String) (config : Option (SMap JsonValue))
    (audio_enabled video_enabled : Bool) : Except String MixerNode :=
  let settings0 := mixerDefaultSettings
  match (match config with
         | some cfg => apply_mixer_config settings0 (SMap.entries cfg)
         | none => Except.ok settings0) with
  | Except.error e => Except.error e
  | Except.ok settings =>
    Except.ok
      { id := id
        audio_enabled := audio_enabled, video_enabled := video_enabled
        slots := SMap.nil
        video_consumer_slot_ids := [], audio_consumer_slot_ids := []
        cue_time := none, end_time := none
        state := State.Initial
        settings := settings
        control_points := SMap.nil
        slot_settings := SMap.nil
        slot_control_points := SMap.nil
        pipeline := MixerPipelineProfile.from_settings settings audio_enabled
          video_enabled MixerPipelineStage.Idle
        last_error := none }

def MixerNode.schedule_transition_due (mx : MixerNode) (now : Int) : Option State :=
  preroll_transition_due mx.cue_time mx.end_time now mx.state

def stageOfMixerState : State → MixerPipelineStage
  | .Initial | .Stopping | .Stopped => .Idle
  | .Starting => .Starting
  | .Started => .Playing

def MixerNode.apply_state_to_stage (mx : MixerNode) : MixerNode :=
  { mx with pipeline := { mx.pipeline with stage := stageOfMixerState mx.state } }

def MixerNode.advance_schedule (mx : MixerNode) (now : Int) : MixerNode :=
  MixerNode.apply_state_to_stage
    { mx with state := preroll_advance mx.cue_time mx.end_time now mx.state }

/-- `apply_control_points`: evaluate every node-level and slot-level
series at `at` and write the resulting values back into `settings` /
`slot_settings`, mirroring `audio::volume` into the slot info. -/
def MixerNode.apply_control_points (mx : MixerNode) (at_ : Int) : MixerNode :=
  let mixer_updates : List (String × JsonValue) :=
    (SMap.entries mx.control_points).filterMap (fun e =>
      (evaluate_control_points e.2 at_).map (fun v => (e.1, v)))
  let settings := mixer_updates.foldl (fun s u => SMap.insert s u.1 u.2) mx.settings
  let slot_updates : List (String × String × JsonValue) :=
    (SMap.entries mx.slot_control_points).foldl (fun acc e =>
      acc ++ (SMap.entries e.2).filterMap (fun pe =>
        (evaluate_control_points pe.2 at_).map (fun v => (e.1, pe.1, v)))) []
  let mx := { mx with settings := settings }
  slot_updates.foldl (fun mx u =>
    let (slot_id, property, v) := u
    let prior := (SMap.get? mx.slot_settings slot_id).getD SMap.nil
    let mx := { mx with
      slot_settings := SMap.insert mx.slot_settings slot_id (SMap.insert prior property v) }
    if property = "audio::volume" then
      { mx with slots := SMap.update mx.slots slot_id (fun s =>
          { s with volume := (v.as_f64).getD s.volume }) }
    else mx) mx

/-- `default_slot_settings`, in source insertion order. -/
def MixerNode.default_slot_settings (mx : MixerNode)
    (audio_enabled video_enabled : Bool) : SMap JsonValue :=
  let defaults : SMap JsonValue := SMap.nil
  let defaults := if video_enabled then
    let width := settingNum mx.settings "width" 1920
    let height := settingNum mx.settings "height" 1080
    let defaults := SMap.insert defaults "video::x" (JsonValue.num 0)
    let defaults := SMap.insert defaults "video::y" (JsonValue.num 0)
    let defaults := SMap.insert defaults "video::width" (JsonValue.num width)
    let defaults := SMap.insert defaults "video::height" (JsonValue.num height)
    let defaults := SMap.insert defaults "video::alpha" (JsonValue.num 1)
    SMap.insert defaults "video::zorder" (JsonValue.num 0)
  else defaults
  if audio_enabled then SMap.insert defaults "audio::volume" (JsonValue.num 1)
  else defaults

def MixerNode.connect_output_consumer (mx : MixerNode) (link_id : String)
    (audio_enabled video_enabled : Bool) : MixerNode :=
  let mx := if audio_enabled then
    { mx with audio_consumer_slot_ids := btreeInsert mx.audio_consumer_slot_ids link_id }
  else mx
  if video_enabled then
    { mx with video_consumer_slot_ids := btreeInsert mx.video_consumer_slot_ids link_id }
  else mx

def MixerNode.disconnect_output_consumer (mx : MixerNode) (link_id : String) : MixerNode :=
  { mx with audio_consumer_slot_ids := btreeErase mx.audio_consumer_slot_ids link_id
            video_consumer_slot_ids := btreeErase mx.video_consumer_slot_ids link_id }

/-- The `for (key, value) in cfg` loop of `connect_input_slot`. -/
def apply_slot_config (link_id : String) (audio_enabled video_enabled : Bool) :
    SMap JsonValue → List (String × JsonValue) → Except String (SMap JsonValue)
  | merged, [] => Except.ok merged
  | merged, (k, v) :: rest =>
    match parse_slot_config_key k with
    | Except.error e => Except.error e
    | Except.ok (is_video, property) =>
      if is_video ∧ ¬ video_enabled then
        Except.error ("Cannot set " ++ k ++ " on link " ++ link_id ++
          "; video is not enabled for this link")
      else if ¬ is_video ∧ ¬ audio_enabled then
        Except.error ("Cannot set " ++ k ++ " on link " ++ link_id ++
          "; audio is not enabled for this link")
      else
        match validate_slot_value is_video property v with
        | Except.error e => Except.error e
        | Except.ok _ =>
          apply_slot_config link_id audio_enabled video_enabled
            (SMap.insert merged k v) rest

def MixerNode.connect_input_slot (mx : MixerNode) (link_id : String)
    (audio_enabled video_enabled : Bool) (slot_config : Option (SMap JsonValue)) :
    Except String MixerNode :=
  let merged0 := mx.default_slot_settings audio_enabled video_enabled
  match (match slot_config with
         | some cfg =>
           apply_slot_config link_id audio_enabled video_enabled merged0 (SMap.entries cfg)
         | none => Except.ok merged0) with
  | Except.error e => Except.error e
  | Except.ok merged =>
    let volume := (((SMap.get? merged "audio::volume").bind JsonValue.as_f64)).getD 1
    let slots := if audio_enabled ∨ video_enabled then
        (if SMap.containsKey mx.slots link_id then mx.slots
         else SMap.insert mx.slots link_id { volume := volume })
      else mx.slots
    let slots := SMap.update slots link_id (fun s => { s with volume := volume })
    let slot_control_points := if SMap.containsKey mx.slot_control_points link_id
      then mx.slot_control_points
      else SMap.insert mx.slot_control_points link_id SMap.nil
    Except.ok { mx with
      slots := slots
      slot_settings := SMap.insert mx.slot_settings link_id merged
      slot_control_points := slot_control_points }

def MixerNode.disconnect_input_slot (mx : MixerNode) (link_id : String) : MixerNode :=
  { mx with
    slots := SMap.erase mx.slots link_id
    slot_settings := SMap.erase mx.slot_settings link_id
    slot_control_points := SMap.erase mx.slot_control_points link_id }

/-- `points.push(cp); points.sort()`: stable sort by time. -/
def pushAndSort (points : List ControlPoint) (cp : ControlPoint) : List ControlPoint :=
  (points ++ [cp]).mergeSort (fun a b => a.time ≤ b.time)

def MixerNode.add_control_point (mx : MixerNode) (property : String) (cp : ControlPoint)
    (now : Int) : Except String MixerNode :=
  if ¬ SMap.containsKey mx.settings property then
    Except.error ("Mixer " ++ mx.id ++ " has no setting with name " ++ property)
  else
    match validate_setting_value property cp.value with
    | Except.error e => Except.error e
    | Except.ok _ =>
      let points := (SMap.get? mx.control_points property).getD []
      let mx := { mx with
        control_points := SMap.insert mx.control_points property (pushAndSort points cp) }
      Except.ok (mx.apply_control_points now)

def MixerNode.remove_control_point (mx : MixerNode) (controller_id property : String)
    (now : Int) : MixerNode :=
  let cps := SMap.update mx.control_points property
    (fun pts => pts.filter (fun point => point.id ≠ controller_id))
  let mx := { mx with control_points := cps }
  mx.apply_control_points now

def MixerNode.add_slot_control_point (mx : MixerNode) (slot_id property : String)
    (cp : ControlPoint) (now : Int) : Except String MixerNode :=
  if ¬ SMap.containsKey mx.slot_settings slot_id then
    Except.error ("Mixer " ++ mx.id ++ " has no slot with id " ++ slot_id)
  else
    match parse_slot_config_key property with
    | Except.error e => Except.error e
    | Except.ok (is_video, prop_name) =>
      match validate_slot_value is_video prop_name cp.value with
      | Except.error e => Except.error e
      | Except.ok _ =>
        let slot := (SMap.get? mx.slot_control_points slot_id).getD SMap.nil
        let points := (SMap.get? slot property).getD []
        let mx := { mx with
          slot_control_points := SMap.insert mx.slot_control_points slot_id
            (SMap.insert slot property (pushAndSort points cp)) }
        Except.ok (mx.apply_control_points now)

def MixerNode.remove_slot_control_point (mx : MixerNode)
    (controller_id slot_id property : String) (now : Int) : MixerNode :=
  let scps := SMap.update mx.slot_control_points slot_id
    (fun slot => SMap.update slot property
      (fun pts => pts.filter (fun point => point.id ≠ controller_id)))
  let mx := { mx with slot_control_points := scps }
  mx.apply_control_points now

def MixerNode.schedule (mx : MixerNode) (cue et : Option Int) (now : Int) :
    Except String Unit × MixerNode :=
  let mx := { mx with cue_time := cue, end_time := et, last_error := none }
  let mx := mx.apply_control_points now
  let mx := if mx.state = State.Starting ∨ mx.state = State.Stopping ∨
      mx.state = State.Stopped then { mx with state := State.Initial } else mx
  let mx := mx.advance_schedule now
  let profile := MixerPipelineProfile.from_settings mx.settings
    mx.audio_enabled mx.video_enabled mx.pipeline.stage
  let mx := { mx with pipeline := profile }
  (Except.ok (), mx)

def MixerNode.stop (mx : MixerNode) : MixerNode :=
  { mx with state := State.Stopped
            pipeline := { mx.pipeline with stage := MixerPipelineStage.Idle } }

def MixerNode.mark_error (mx : MixerNode) (msg : String) : MixerNode :=
  { mx with last_error := some msg }

/-- `refresh`: apply the control points, advance the schedule, then
`sync_live_pipeline` (no-op `Ok` with the framework uninitialized). -/
def MixerNode.refresh (mx : MixerNode) (now : Int) : Except String MixerNode :=
  Except.ok ((mx.apply_control_points now).advance_schedule now)

def MixerNode.as_info (mx : MixerNode) : NodeInfo :=
  NodeInfo.Mixer
    { slots := mx.slots
      video_consumer_slot_ids := some mx.video_consumer_slot_ids
      audio_consumer_slot_ids := some mx.audio_consumer_slot_ids
      cue_time := mx.cue_time, end_time := mx.end_time, state := mx.state
      settings := mx.settings
      control_points := mx.control_points
      slot_settings := mx.slot_settings
      slot_control_points := mx.slot_control_points }

/-! ## Stream bridge (`media_bridge.rs`)

Streaming-framework handles are modelled by tokens: an `AppSink` is its
object identity (a string token; `current == sink` is pointer equality on
shared `glib` objects), an `AppSrc` carries its identity and the caps the
bridge has set on it, and caps themselves are opaque strings. Callback
registration on the attached sink is represented by the `attached_sink`
field together with the detached-sink component returned by `clear` and
`attach_sink` (the Rust resets the old sink's callbacks to an empty
builder there). -/

def Caps : Type := String

instance : DecidableEq Caps := by unfold Caps; infer_instance

instance : Repr Caps := by unfold Caps; infer_instance

structure AppSrcM where
  name : String
  caps : Option Caps
  deriving DecidableEq, Repr

def AppSinkM : Type := String

instance : DecidableEq AppSinkM := by unfold AppSinkM; infer_instance

instance : Repr AppSinkM := by unfold AppSinkM; infer_instance

structure StreamBridge where
  consumers : SMap AppSrcM
  attached_sink : Option AppSinkM
  last_caps : Option Caps
  deriving DecidableEq

/-- `StreamBridge::default()`. -/
def StreamBridge.default : StreamBridge :=
  { consumers := SMap.nil, attached_sink := none, last_caps := none }

/-- `add_consumer`: record the consumer under its id and immediately set
the cached caps on it when present (`consumer.set_caps`). -/
def StreamBridge.add_consumer (b : StreamBridge) (consumer_id : String)
    (consumer : AppSrcM) : StreamBridge :=
  let consumer := match b.last_caps with
    | some caps => { consumer with caps := some caps }
    | none => consumer
  { b with consumers := SMap.insert b.consumers consumer_id consumer }

def StreamBridge.remove_consumer (b : StreamBridge) (consumer_id : String) : StreamBridge :=
  { b with consumers := SMap.erase b.consumers consumer_id }

/-- `clear`: drop every consumer, the cached caps and the attached sink;
the second component is the detached sink whose callbacks were reset. -/
def StreamBridge.clear (b : StreamBridge) : StreamBridge × Option AppSinkM :=
  ({ consumers := SMap.nil, attached_sink := none, last_caps := none }, b.attached_sink)

def StreamBridge.has_consumers (b : StreamBridge) : Bool :=
  ¬ SMap.isEmpty b.consumers

/-- `attach_sink`: a no-op when the sink is already attached; otherwise
detach the prior sink (second component, callbacks reset), clear the
cached caps and install the new sink's callbacks. -/
def StreamBridge.attach_sink (b : StreamBridge) (sink : AppSinkM) :
    StreamBridge × Option AppSinkM :=
  if b.attached_sink = some sink then (b, none)
  else
    ({ b with attached_sink := some sink, last_caps := none }, b.attached_sink)

/-! ## Node manager (`node_manager.rs`) -/

/-- Model of `gst::ffi::gst_is_initialized()`: this development models the
uninitialized regime (the regime of the repository's unit tests), in which
`sync_media_links` returns immediately and every `sync_live_pipeline` is a
no-op returning `Ok(())`. -/
def gst_initialized : Bool := false

structure LinkRecord where
  src_id : String
  sink_id : String
  audio_enabled : Bool
  video_enabled : Bool
  config : Option (SMap JsonValue)
  deriving DecidableEq, Repr

inductive NodeRecord where
  | Source (node : SourceNode) : NodeRecord
  | Destination (node : DestinationNode) : NodeRecord
  | Mixer (node : MixerNode) : NodeRecord
  | VideoGenerator (node : VideoGeneratorNode) : NodeRecord
  deriving DecidableEq, Repr

def NodeRecord.can_output_audio : NodeRecord → Bool
  | .Source node => node.audio_enabled
  | .Mixer node => node.audio_enabled
  | .VideoGenerator node => node.audio_enabled
  | .Destination _ => false

def NodeRecord.can_output_video : NodeRecord → Bool
  | .Source node => node.video_enabled
  | .Mixer node => node.video_enabled
  | .VideoGenerator node => node.video_enabled
  | .Destination _ => false

def NodeRecord.can_input_audio : NodeRecord → Bool
  | .Destination node => node.audio_enabled
  | .Mixer node => node.audio_enabled
  | .Source _ | .VideoGenerator _ => false

def NodeRecord.can_input_video : NodeRecord → Bool
  | .Destination node => node.video_enabled
  | .Mixer node => node.video_enabled
  | .Source _ | .VideoGenerator _ => false

def NodeRecord.to_info : NodeRecord → NodeInfo
  | .Source node => node.as_info
  | .Destination node => node.as_info
  | .Mixer node => node.as_info
  | .VideoGenerator node => node.as_compatible_source_info

def NodeRecord.set_schedule (n : NodeRecord) (cue et : Option Int) (now : Int) :
    Except String Unit × NodeRecord :=
  match n with
  | .Source node =>
    let (r, node) := node.schedule cue et now
    (r, .Source node)
  | .Destination node =>
    let (r, node) := node.schedule cue et now
    (r, .Destination node)
  | .Mixer node =>
    let (r, node) := node.schedule cue et now
    (r, .Mixer node)
  | .VideoGenerator node =>
    let (r, node) := node.schedule cue et now
    (r, .VideoGenerator node)

def NodeRecord.stop : NodeRecord → NodeRecord
  | .Source node => .Source node.stop
  | .Destination node => .Destination node.stop
  | .Mixer node => .Mixer node.stop
  | .VideoGenerator node => .VideoGenerator node.stop

def NodeRecord.mark_error (n : NodeRecord) (msg : String) : NodeRecord :=
  match n with
  | .Source node => .Source (node.mark_error msg)
  | .Destination node => .Destination (node.mark_error msg)
  | .Mixer node => .Mixer (node.mark_error msg)
  | .VideoGenerator node => .VideoGenerator (node.mark_error msg)

def NodeRecord.add_consumer_link (n : NodeRecord) (link_id : String)
    (audio_enabled video_enabled : Bool) : NodeRecord :=
  match n with
  | .Source node => .Source (node.add_consumer_link link_id audio_enabled video_enabled)
  | .Mixer node => .Mixer (node.connect_output_consumer link_id audio_enabled video_enabled)
  | .VideoGenerator node =>
    .VideoGenerator (node.add_consumer_link link_id audio_enabled video_enabled)
  | .Destination node => .Destination node

def NodeRecord.remove_consumer_link (n : NodeRecord) (link_id : String) : NodeRecord :=
  match n with
  | .Source node => .Source (node.remove_consumer_link link_id)
  | .Mixer node => .Mixer (node.disconnect_output_consumer link_id)
  | .VideoGenerator node => .VideoGenerator (node.remove_consumer_link link_id)
  | .Destination node => .Destination node

/-- `refresh_runtime`: run the node's `refresh` and record errors in
`last_error` (no refresh errs in the uninitialized regime). -/
def NodeRecord.refresh_runtime (n : NodeRecord) (now : Int) : NodeRecord :=
  match n with
  | .Source node =>
    match node.refresh now with
    | Except.ok node => .Source node
    | Except.error e => (NodeRecord.Source node).mark_error e
  | .Destination node =>
    match node.refresh now with
    | Except.ok node => .Destination node
    | Except.error e => (NodeRecord.Destination node).mark_error e
  | .Mixer node =>
    match node.refresh now with
    | Except.ok node => .Mixer node
    | Except.error e => (NodeRecord.Mixer node).mark_error e
  | .VideoGenerator node =>
    match node.refresh now with
    | Except.ok node => .VideoGenerator node
    | Except.error e => (NodeRecord.VideoGenerator node).mark_error e

structure NodeManager where
  started : Bool
  nodes : SMap NodeRecord
  links : SMap LinkRecord
  media_bridges : SMap StreamBridge
  deriving DecidableEq

def NodeManager.default : NodeManager :=
  { started := false, nodes := SMap.nil, links := SMap.nil, media_bridges := SMap.nil }

def NodeManager.refresh_nodes (m : NodeManager) (now : Int) : NodeManager :=
  { m with nodes := SMap.mapValues m.nodes (fun n => n.refresh_runtime now) }

def bridge_key (src_id media : String) : String := src_id ++ ":" ++ media

/-- `remove_media_bridge_link`: drop the link's consumer from the bridge
of each of its media; a bridge left without consumers is cleared and
removed from the map. -/
def NodeManager.remove_media_bridge_link (m : NodeManager) (src_id link_id : String)
    (audio_enabled video_enabled : Bool) : NodeManager :=
  let step := fun (m : NodeManager) (media : String) =>
    let key := bridge_key src_id media
    match SMap.get? m.media_bridges key with
    | none => m
    | some bridge =>
      let bridge := bridge.remove_consumer link_id
      if bridge.has_consumers then
        { m with media_bridges := SMap.insert m.media_bridges key bridge }
      else
        { m with media_bridges := SMap.erase m.media_bridges key }
  let m := if audio_enabled then step m "audio" else m
  if video_enabled then step m "video" else m

/-- `sync_media_links` begins with `if !Self::gst_initialized() { return; }`;
with the framework uninitialized (`gst_initialized = false`) it returns
immediately, so in this model it is the identity. Its initialized branch
wires live appsinks/appsrcs into bridges and is outside the model. -/
def NodeManager.sync_media_links (m : NodeManager) : NodeManager := m

def NodeManager.ensure_unique_id (m : NodeManager) (id : String) : Except String Unit :=
  if SMap.containsKey m.nodes id then
    Except.error ("A node already exists with id " ++ id)
  else Except.ok ()

def NodeManager.create_video_generator (m : NodeManager) (id : String) :
    CommandResult × NodeManager :=
  match m.ensure_unique_id id with
  | Except.error e => (CommandResult.Error e, m)
  | Except.ok _ =>
    let nodes := SMap.insert m.nodes id
      (NodeRecord.VideoGenerator (VideoGeneratorNode.new id))
    (CommandResult.Success, { m with nodes := nodes })

def NodeManager.create_source (m : NodeManager) (id uri : String)
    (audio_enabled video_enabled : Bool) : CommandResult × NodeManager :=
  match m.ensure_unique_id id with
  | Except.error e => (CommandResult.Error e, m)
  | Except.ok _ =>
    if ¬ audio_enabled ∧ ¬ video_enabled then
      (CommandResult.Error ("Source with id " ++ id ++
        " must have either audio or video enabled"), m)
    else
      let nodes := SMap.insert m.nodes id
        (NodeRecord.Source (SourceNode.new id uri audio_enabled video_enabled))
      (CommandResult.Success, { m with nodes := nodes })

def NodeManager.create_destination (m : NodeManager) (id : String)
    (family : DestinationFamily) (audio_enabled video_enabled : Bool) :
    CommandResult × NodeManager :=
  match m.ensure_unique_id id with
  | Except.error e => (CommandResult.Error e, m)
  | Except.ok _ =>
    if ¬ audio_enabled ∧ ¬ video_enabled then
      (CommandResult.Error ("Destination with id " ++ id ++
        " must have either audio or video enabled"), m)
    else
      let nodes := SMap.insert m.nodes id
        (NodeRecord.Destination (DestinationNode.new id family audio_enabled video_enabled))
      (CommandResult.Success, { m with nodes := nodes })

def NodeManager.create_mixer (m : NodeManager) (id : String)
    (config : Option (SMap JsonValue)) (audio_enabled video_enabled : Bool) :
    CommandResult × NodeManager :=
  match m.ensure_unique_id id with
  | Except.error e => (CommandResult.Error e, m)
  | Except.ok _ =>
    if ¬ audio_enabled ∧ ¬ video_enabled then
      (CommandResult.Error ("Mixer with id " ++ id ++
        " must have either audio or video enabled"), m)
    else
      match MixerNode.new id config audio_enabled video_enabled with
      | Except.error e => (CommandResult.Error e, m)
      | Except.ok node =>
        let nodes := SMap.insert m.nodes id (NodeRecord.Mixer node)
        (CommandResult.Success, { m with nodes := nodes })

def NodeManager.connect (m : NodeManager) (link_id src_id sink_id : String)
    (audio_enabled video_enabled : Bool) (config : Option (SMap JsonValue)) :
    CommandResult × NodeManager :=
  if ¬ audio_enabled ∧ ¬ video_enabled then
    (CommandResult.Error ("Link with id " ++ link_id ++
      " must have either audio or video enabled"), m)
  else if SMap.containsKey m.links link_id then
    (CommandResult.Error ("A link already exists with id " ++ link_id), m)
  else
    match SMap.get? m.nodes src_id with
    | none => (CommandResult.Error ("No producer with id " ++ src_id), m)
    | some src_node =>
      match SMap.get? m.nodes sink_id with
      | none => (CommandResult.Error ("No consumer with id " ++ sink_id), m)
      | some sink_node =>
        if audio_enabled ∧ (¬ src_node.can_output_audio ∨ ¬ sink_node.can_input_audio) then
          (CommandResult.Error ("Link " ++ link_id ++
            " requested audio, but source/sink capabilities do not match"), m)
        else if video_enabled ∧ (¬ src_node.can_output_video ∨ ¬ sink_node.can_input_video)
        then
          (CommandResult.Error ("Link " ++ link_id ++
            " requested video, but source/sink capabilities do not match"), m)
        else
          let sink_update : Except String Unit × NodeRecord :=
            match sink_node with
            | NodeRecord.Destination dest =>
              let (r, dest) := dest.connect_input link_id audio_enabled video_enabled
              (r, NodeRecord.Destination dest)
            | NodeRecord.Mixer mixer =>
              match mixer.connect_input_slot link_id audio_enabled video_enabled config with
              | Except.ok mixer => (Except.ok (), NodeRecord.Mixer mixer)
              | Except.error e => (Except.error e, NodeRecord.Mixer mixer)
            | NodeRecord.Source node =>
              (Except.error ("Node " ++ sink_id ++ " is not a consumer"),
               NodeRecord.Source node)
            | NodeRecord.VideoGenerator node =>
              (Except.error ("Node " ++ sink_id ++ " is not a consumer"),
               NodeRecord.VideoGenerator node)
          -- `get_mut` writes the sink back before the error check: the
          -- partially updated sink node stays in the map either way
          let m := { m with nodes := SMap.insert m.nodes sink_id sink_update.2 }
          match sink_update.1 with
          | Except.error e => (CommandResult.Error e, m)
          | Except.ok _ =>
            let nodes := SMap.update m.nodes src_id
              (fun src => src.add_consumer_link link_id audio_enabled video_enabled)
            let m := { m with nodes := nodes }
            let links := SMap.insert m.links link_id
              { src_id := src_id, sink_id := sink_id
                audio_enabled := audio_enabled, video_enabled := video_enabled
                config := config }
            (CommandResult.Success, { m with links := links })

def NodeManager.disconnect (m : NodeManager) (link_id : String) :
    CommandResult × NodeManager :=
  match SMap.get? m.links link_id with
  | none => (CommandResult.Error ("No link with id " ++ link_id), m)
  | some link =>
    let m := { m with links := SMap.erase m.links link_id }
    let m := m.remove_media_bridge_link link.src_id link_id
      link.audio_enabled link.video_enabled
    let nodes1 := SMap.update m.nodes link.src_id
      (fun src => src.remove_consumer_link link_id)
    let m := { m with nodes := nodes1 }
    let nodes2 := SMap.update m.nodes link.sink_id (fun sink =>
      match sink with
      | NodeRecord.Destination dest => NodeRecord.Destination (dest.disconnect_input link_id)
      | NodeRecord.Mixer mixer => NodeRecord.Mixer (mixer.disconnect_input_slot link_id)
      | other => other)
    (CommandResult.Success, { m with nodes := nodes2 })

def NodeManager.schedule_node (m : NodeManager) (id : String)
    (cue et : Option Int) (now : Int) : CommandResult × NodeManager :=
  match SMap.get? m.nodes id with
  | none => (CommandResult.Error ("No node with id " ++ id), m)
  | some node =>
    match node.set_schedule cue et now with
    | (Except.error e, node) =>
      -- on failure the node keeps its pre-call state and the error is recorded
      let nodes := SMap.insert m.nodes id (node.mark_error e)
      (CommandResult.Error e, { m with nodes := nodes })
    | (Except.ok _, node) =>
      let nodes := SMap.insert m.nodes id node
      (CommandResult.Success, { m with nodes := nodes })

def NodeManager.remove_node (m : NodeManager) (id : String) :
    CommandResult × NodeManager :=
  if ¬ SMap.containsKey m.nodes id then
    (CommandResult.Error ("No node with id " ++ id), m)
  else
    let m := { m with nodes := SMap.update m.nodes id NodeRecord.stop }
    let link_ids := ((SMap.entries m.links).filter
      (fun e => e.2.src_id == id || e.2.sink_id == id)).map Prod.fst
    let m := link_ids.foldl (fun m lid => (m.disconnect lid).2) m
    (CommandResult.Success, { m with nodes := SMap.erase m.nodes id })

def NodeManager.get_info (m : NodeManager) (id : Option String) :
    CommandResult × NodeManager :=
  match id with
  | some id =>
    match SMap.get? m.nodes id with
    | none => (CommandResult.Error ("No node with id " ++ id), m)
    | some node =>
      let onemap := SMap.insert SMap.nil id node.to_info
      (CommandResult.Info { nodes := onemap }, m)
  | none =>
    (CommandResult.Info
      { nodes := (SMap.entries m.nodes).map (fun e => (e.1, e.2.to_info)) }, m)

def NodeManager.add_control_point (m : NodeManager) (controllee_id property : String)
    (control_point : ControlPoint) (now : Int) : CommandResult × NodeManager :=
  match SMap.get? m.links controllee_id with
  | some link =>
    (match SMap.get? m.nodes link.sink_id with
     | none =>
       (CommandResult.Error ("No sink node with id " ++ link.sink_id ++
         " for link " ++ controllee_id), m)
     | some (NodeRecord.Mixer mixer) =>
       match mixer.add_slot_control_point controllee_id property control_point now with
       | Except.ok mixer =>
         let nodes := SMap.insert m.nodes link.sink_id (NodeRecord.Mixer mixer)
         (CommandResult.Success, { m with nodes := nodes })
       | Except.error e => (CommandResult.Error e, m)
     | some _ =>
       (CommandResult.Error
         ("Slot control points are only supported for mixer links; " ++
          link.sink_id ++ " is not a mixer"), m))
  | none =>
    match SMap.get? m.nodes controllee_id with
    | none => (CommandResult.Error ("No node or slot with id " ++ controllee_id), m)
    | some (NodeRecord.Mixer mixer) =>
      (match mixer.add_control_point property control_point now with
       | Except.ok mixer =>
         let nodes := SMap.insert m.nodes controllee_id (NodeRecord.Mixer mixer)
         (CommandResult.Success, { m with nodes := nodes })
       | Except.error e => (CommandResult.Error e, m))
    | some _ =>
      (CommandResult.Error
        ("Node control points are currently supported only for mixers; " ++
         controllee_id ++ " is not a mixer"), m)

def NodeManager.remove_control_point (m : NodeManager)
    (controller_id controllee_id property : String) (now : Int) :
    CommandResult × NodeManager :=
  match SMap.get? m.links controllee_id with
  | some link =>
    (match SMap.get? m.nodes link.sink_id with
     | none =>
       (CommandResult.Error ("No sink node with id " ++ link.sink_id ++
         " for link " ++ controllee_id), m)
     | some (NodeRecord.Mixer mixer) =>
       let nodes := SMap.insert m.nodes link.sink_id
         (NodeRecord.Mixer
           (mixer.remove_slot_control_point controller_id controllee_id property now))
       (CommandResult.Success, { m with nodes := nodes })
     | some _ =>
       (CommandResult.Error
         ("Slot control points are only supported for mixer links; " ++
          link.sink_id ++ " is not a mixer"), m))
  | none =>
    match SMap.get? m.nodes controllee_id with
    | none => (CommandResult.Error ("No node or slot with id " ++ controllee_id), m)
    | some (NodeRecord.Mixer mixer) =>
      let nodes := SMap.insert m.nodes controllee_id
        (NodeRecord.Mixer (mixer.remove_control_point controller_id property now))
      (CommandResult.Success, { m with nodes := nodes })
    | some _ =>
      (CommandResult.Error
        ("Node control points are currently supported only for mixers; " ++
         controllee_id ++ " is not a mixer"), m)

/-- `dispatch`: mark started, refresh every node, execute the command,
synchronize the bridges for mutating commands, refresh again. The clock
`now` stands for the `Utc::now()` reads during the dispatch. -/
def NodeManager.dispatch (m : NodeManager) (now : Int) (c : Command) :
    CommandResult × NodeManager :=
  let m := if m.started then m else { m with started := true }
  let m := m.refresh_nodes now
  let step : CommandResult × Bool × NodeManager :=
    match c with
    | Command.CreateVideoGenerator id =>
      let (r, m) := m.create_video_generator id
      (r, true, m)
    | Command.CreateSource id uri audio_enabled video_enabled =>
      let (r, m) := m.create_source id uri audio_enabled video_enabled
      (r, true, m)
    | Command.CreateDestination id family audio_enabled video_enabled =>
      let (r, m) := m.create_destination id family audio_enabled video_enabled
      (r, true, m)
    | Command.CreateMixer id config audio_enabled video_enabled =>
      let (r, m) := m.create_mixer id config audio_enabled video_enabled
      (r, true, m)
    | Command.Connect link_id src_id sink_id audio_enabled video_enabled config =>
      let (r, m) := m.connect link_id src_id sink_id audio_enabled video_enabled config
      (r, true, m)
    | Command.Disconnect link_id =>
      let (r, m) := m.disconnect link_id
      (r, true, m)
    | Command.Start id cue et =>
      let (r, m) := m.schedule_node id cue et now
      (r, true, m)
    | Command.Reschedule id cue et =>
      let (r, m) := m.schedule_node id cue et now
      (r, true, m)
    | Command.Remove id =>
      let (r, m) := m.remove_node id
      (r, true, m)
    | Command.GetInfo id =>
      let (r, m) := m.get_info id
      (r, false, m)
    | Command.AddControlPoint controllee_id property control_point =>
      let (r, m) := m.add_control_point controllee_id property control_point now
      (r, true, m)
    | Command.RemoveControlPoint id controllee_id property =>
      let (r, m) := m.remove_control_point id controllee_id property now
      (r, true, m)
  let (result, should_sync, m) := step
  let m := if should_sync then m.sync_media_links else m
  let m := m.refresh_nodes now
  (result, m)

/-! ## Runtime command endpoint (`runtime.rs`)

The HTTP request is modelled as the list of characters the client sends;
`stream.read` hands out chunks of at most 4096. JSON parsing and the
payload side of serialization belong to `serde`/`serde_json` and are
abstracted as parameters (`parse`, `printResult`); the response envelope
`{"id": ..., "result": ...}` comes from the `ServerMessage` shape and is
modelled concretely. -/

def GRAPH_COMMAND_MAX_REQUEST_SIZE : Nat := 1024 * 1024

/-- `ControllerMessage` / plain `Command` alternatives of the untagged
`InboundCommand`. -/
inductive InboundCommand where
  | Controller (id : String) (command : Command) : InboundCommand
  | Cmd (command : Command) : InboundCommand

structure ServerMessage where
  id : Option String
  result : CommandResult

/-- Serialization of `ServerMessage`: the envelope is concrete, the
`CommandResult` payload printer is the `serde_json` parameter. -/
def ServerMessage.to_json (printResult : CommandResult → String) (sm : ServerMessage) :
    String :=
  "\x7b\"id\":" ++
    (match sm.id with
     | some u => "\"" ++ u ++ "\""
     | none => "null") ++
  ",\"result\":" ++ printResult sm.result ++ "\x7d"

/-- `try_handle_command_json`, with `serde_json::from_str` abstracted as
`parse` (`none` models a parse failure). -/
def try_handle_command_json (parse : String → Option InboundCommand)
    (printResult : CommandResult → String) (m : NodeManager) (now : Int)
    (payload : String) : String × NodeManager :=
  match parse payload with
  | some (InboundCommand.Controller u c) =>
    let (res, m) := m.dispatch now c
    (ServerMessage.to_json printResult { id := some u, result := res }, m)
  | some (InboundCommand.Cmd c) =>
    let (res, m) := m.dispatch now c
    (ServerMessage.to_json printResult { id := none, result := res }, m)
  | none =>
    (ServerMessage.to_json printResult
      { id := none
        result := CommandResult.Error
          "Invalid command payload: Failed to parse command JSON payload" }, m)

/-- `handle_command_http_request`: route on method and path. -/
def handle_command_http_request (parse : String → Option InboundCommand)
    (printResult : CommandResult → String) (m : NodeManager) (now : Int)
    (method path : String) (body : List Char) :
    (String × String × String) × NodeManager :=
  if method = "POST" ∧ path = "/command" then
    let (response, m) := try_handle_command_json parse printResult m now (String.mk body)
    (("200 OK", "application/json", response), m)
  else if method = "GET" ∧ path = "/health" then
    (("200 OK", "application/json", "\x7b\"status\":\"ok\"\x7d"), m)
  else if method = "POST" ∨ method = "GET" then
    (("404 Not Found", "application/json", "\x7b\"error\":\"not found\"\x7d"), m)
  else
    (("405 Method Not Allowed", "application/json",
      "\x7b\"error\":\"method not allowed\"\x7d"), m)

/-- Index of the first occurrence of `pat` in `l`
(`buffer.windows(4).position(...)`). -/
def findSub (pat : List Char) : List Char → Option Nat
  | [] => if pat = [] then some 0 else none
  | c :: rest =>
    if List.isPrefixOf pat (c :: rest) then some 0
    else (findSub pat rest).map Nat.succ

def crlf2 : List Char := ['\r', '\n', '\r', '\n']

/-- The header-reading loop of `parse_http_request`: read 4096-byte
chunks until the terminator is found, the buffer reaches the size cap, or
the stream ends; returns the buffer, the terminator position and the
unread remainder of the stream. -/
def read_header_loop (buffer : List Char) (header_end : Option Nat)
    (stream : List Char) : List Char × Option Nat × List Char :=
  if header_end.isSome ∨ GRAPH_COMMAND_MAX_REQUEST_SIZE ≤ buffer.length then
    (buffer, header_end, stream)
  else
    match stream with
    | [] => (buffer, header_end, [])
    | c :: rest0 =>
      let chunk := (c :: rest0).take 4096
      let rest := (c :: rest0).drop 4096
      let buffer := buffer ++ chunk
      read_header_loop buffer (findSub crlf2 buffer) rest
termination_by stream.length
decreasing_by
  simp only [List.length_drop, List.length_cons]
  omega

/-- The body-reading loop of `parse_http_request`: read until
`content_length` bytes are buffered, erroring as soon as the buffered
body exceeds the size cap. -/
def read_body_loop (body : List Char) (content_length : Nat) (stream : List Char) :
    Except String (List Char) :=
  if content_length ≤ body.length then Except.ok body
  else
    match stream with
    | [] => Except.ok body
    | c :: rest0 =>
      let chunk := (c :: rest0).take 4096
      let rest := (c :: rest0).drop 4096
      let body := body ++ chunk
      if GRAPH_COMMAND_MAX_REQUEST_SIZE < body.length then
        Except.error "HTTP request body is too large"
      else read_body_loop body content_length rest
termination_by stream.length
decreasing_by
  simp only [List.length_drop, List.length_cons]
  omega

/-- `str::lines` over the header block: split on `'\n'`, dropping one
trailing `'\r'` per line. -/
def splitLines (l : List Char) : List (List Char) :=
  ((l.splitOn '\n').map (fun line =>
    if line.getLast? = some '\r' then line.dropLast else line))

/-- `split_whitespace` (spaces suffice for the model). -/
def splitWords (l : List Char) : List (List Char) :=
  (l.splitOn ' ').filter (fun w => ¬ w.isEmpty)

/-- Case-insensitive comparison for header names. -/
def asciiLower (l : List Char) : List Char := l.map Char.toLower

/-- Trim spaces (model of `str::trim`). -/
def trimSpaces (l : List Char) : List Char :=
  (l.dropWhile (fun c => c = ' ')).reverse.dropWhile (fun c => c = ' ') |>.reverse

/-- Extract the first parsable `Content-Length` header value
(`filter_map(...).next().unwrap_or(0)`). -/
def contentLengthOf (lines : List (List Char)) : Nat :=
  ((lines.filterMap (fun line =>
      match line.splitOn ':' with
      | name :: rest =>
        if asciiLower (trimSpaces name) = "content-length".toList ∧ rest ≠ [] then
          (String.mk (trimSpaces (String.intercalate ":"
            (rest.map String.mk)).toList)).toNat?
        else none
      | [] => none)).head?).getD 0

/-- `parse_http_request` (`runtime.rs`): returns method, path and body,
or the protocol error string. -/
def parse_http_request (stream : List Char) :
    Except String (String × String × List Char) :=
  match read_header_loop [] none stream with
  | (buffer, header_end, stream) =>
    match header_end with
    | none => Except.error "Malformed HTTP request: missing header terminator"
    | some header_idx =>
      let headers_end := header_idx + 4
      let header_bytes := buffer.take header_idx
      let lines := splitLines header_bytes
      match lines with
      | [] => Except.error "Malformed HTTP request: missing request line"
      | request_line :: header_lines =>
        match splitWords request_line with
        | [] => Except.error "Malformed HTTP request: missing method"
        | [_] => Except.error "Malformed HTTP request: missing path"
        | method :: path :: _ =>
          let content_length := contentLengthOf header_lines
          if GRAPH_COMMAND_MAX_REQUEST_SIZE < content_length then
            Except.error "HTTP request body is too large"
          else
            match read_body_loop (buffer.drop headers_end) content_length stream with
            | Except.error e => Except.error e
            | Except.ok body =>
              let body := if content_length < body.length
                then body.take content_length else body
              Except.ok (String.mk method, String.mk path, body)

/-- `build_http_response`. -/
def build_http_response (status content_type : String) (body : String) : String :=
  "HTTP/1.1 " ++ status ++ "\r\n" ++
  "Content-Type: " ++ content_type ++ "\r\n" ++
  "Content-Length: " ++ toString body.length ++ "\r\n" ++
  "Connection: close\r\n\r\n" ++ body

/-- `handle_command_http_connection`: parse, route, answer; a parse
error becomes a `400` with an error body. -/
def handle_command_http_connection (parse : String → Option InboundCommand)
    (printResult : CommandResult → String) (m : NodeManager) (now : Int)
    (stream : List Char) : String × NodeManager :=
  match parse_http_request stream with
  | Except.ok (method, path, body) =>
    let ((status, content_type, payload), m) :=
      handle_command_http_request parse printResult m now method path body
    (build_http_response status content_type payload, m)
  | Except.error e =>
    (build_http_response "400 Bad Request" "application/json"
      ("\x7b\"error\":\"" ++ e ++ "\"\x7d"), m)

/-! ## Claim C2: preroll state machines -/

lemma sourceNode_advance_state (n : SourceNode) (now : Int) :
    (n.advance_schedule now).state = preroll_advance n.cue_time n.end_time now n.state := rfl

lemma mixerNode_advance_state (mx : MixerNode) (now : Int) :
    (mx.advance_schedule now).state =
      preroll_advance mx.cue_time mx.end_time now mx.state := rfl

lemma videoGenNode_advance_state (n : VideoGeneratorNode) (now : Int) :
    (n.advance_schedule now).state = preroll_advance n.cue_time n.end_time now n.state := rfl

lemma destNode_advance_state (d : DestinationNode) (now : Int) :
    (d.advance_schedule now).state = dest_advance_loop d.cue_time d.end_time now d.state := rfl

lemma preroll_adv_initial_starting_iff (c : Int) (et : Option Int) (now : Int) :
    preroll_advance (some c) et now State.Initial = State.Starting ↔
      c - preroll_lead_ms ≤ now ∧ now < c := by
  rw [preroll_advance_initial_some]
  by_cases h3 : now ≥ c - preroll_lead_ms
  · rw [if_pos h3]
    by_cases h4 : now ≥ c
    · rw [if_pos h4]
      constructor
      · intro hst; split at hst <;> cases hst
      · intro hw; exact absurd hw.2 (by omega)
    · rw [if_neg h4]
      exact ⟨fun _ => ⟨by omega, by omega⟩, fun _ => rfl⟩
  · rw [if_neg h3]
    constructor
    · intro hst; cases hst
    · intro hw; exact absurd hw.1 (by omega)

lemma preroll_adv_initial_started_iff (c : Int) (et : Option Int) (now : Int)
    (hend : ¬ endReached et now = true) :
    preroll_advance (some c) et now State.Initial = State.Started ↔ c ≤ now := by
  rw [preroll_advance_initial_some]
  by_cases h3 : now ≥ c - preroll_lead_ms
  · rw [if_pos h3]
    by_cases h4 : now ≥ c
    · rw [if_pos h4, if_neg hend]
      exact ⟨fun _ => by omega, fun _ => rfl⟩
    · rw [if_neg h4]
      constructor
      · intro hst; cases hst
      · intro hle; exact absurd hle (by omega)
  · rw [if_neg h3]
    constructor
    · intro hst; cases hst
    · intro hle
      have hl : preroll_lead_ms = 10000 := rfl
      exact absurd hle (by omega)

lemma preroll_started_stop_iff (cue et : Option Int) (now : Int) :
    (preroll_transition_due cue et now State.Started = some State.Stopping ∧
      preroll_advance cue et now State.Started = State.Stopped) ↔
      endReached et now = true := by
  rw [preroll_advance_started]
  by_cases he : endReached et now = true
  · simp [preroll_transition_due, he]
  · simp [preroll_transition_due, he]

/-- Claim C2: for every source, mixer, or video-generator node,
advancing the schedule at `now` follows the preroll rule. With no cue,
`Initial` moves directly to `Started` (when the end has not passed); with
a cue `c`, a node advanced from `Initial` lands in `Starting` exactly when
`c - 10s ≤ now < c`, and (when the end has not passed) in `Started`
exactly when `now ≥ c`; from `Started` the due transition is `Stopping`
and the advance ends in `Stopped` exactly when the end time is set and
reached. -/
theorem C2_preroll_state_machines :
    (∀ (n : SourceNode) (now : Int), n.state = State.Initial → n.cue_time = none →
        ¬ endReached n.end_time now = true →
        (n.advance_schedule now).state = State.Started) ∧
    (∀ (n : SourceNode) (c now : Int), n.state = State.Initial → n.cue_time = some c →
        ((n.advance_schedule now).state = State.Starting ↔
          c - preroll_lead_ms ≤ now ∧ now < c)) ∧
    (∀ (n : SourceNode) (c now : Int), n.state = State.Initial → n.cue_time = some c →
        ¬ endReached n.end_time now = true →
        ((n.advance_schedule now).state = State.Started ↔ c ≤ now)) ∧
    (∀ (n : SourceNode) (now : Int), n.state = State.Started →
        ((n.schedule_transition_due now = some State.Stopping ∧
          (n.advance_schedule now).state = State.Stopped) ↔
          endReached n.end_time now = true)) ∧
    (∀ (mx : MixerNode) (now : Int), mx.state = State.Initial → mx.cue_time = none →
        ¬ endReached mx.end_time now = true →
        (mx.advance_schedule now).state = State.Started) ∧
    (∀ (mx : MixerNode) (c now : Int), mx.state = State.Initial → mx.cue_time = some c →
        ((mx.advance_schedule now).state = State.Starting ↔
          c - preroll_lead_ms ≤ now ∧ now < c)) ∧
    (∀ (mx : MixerNode) (c now : Int), mx.state = State.Initial → mx.cue_time = some c →
        ¬ endReached mx.end_time now = true →
        ((mx.advance_schedule now).state = State.Started ↔ c ≤ now)) ∧
    (∀ (mx : MixerNode) (now : Int), mx.state = State.Started →
        ((mx.schedule_transition_due now = some State.Stopping ∧
          (mx.advance_schedule now).state = State.Stopped) ↔
          endReached mx.end_time now = true)) ∧
    (∀ (n : VideoGeneratorNode) (now : Int), n.state = State.Initial →
        n.cue_time = none → ¬ endReached n.end_time now = true →
        (n.advance_schedule now).state = State.Started) ∧
    (∀ (n : VideoGeneratorNode) (c now : Int), n.state = State.Initial →
        n.cue_time = some c →
        ((n.advance_schedule now).state = State.Starting ↔
          c - preroll_lead_ms ≤ now ∧ now < c)) ∧
    (∀ (n : VideoGeneratorNode) (c now : Int), n.state = State.Initial →
        n.cue_time = some c → ¬ endReached n.end_time now = true →
        ((n.advance_schedule now).state = State.Started ↔ c ≤ now)) ∧
    (∀ (n : VideoGeneratorNode) (now : Int), n.state = State.Started →
        ((n.schedule_transition_due now = some State.Stopping ∧
          (n.advance_schedule now).state = State.Stopped) ↔
          endReached n.end_time now = true)) := by
  refine ⟨?_, ?_, ?_, ?_, ?_, ?_, ?_, ?_, ?_, ?_, ?_, ?_⟩
  · intro n now h1 h2 hend
    rw [sourceNode_advance_state, h1, h2, preroll_advance_initial_none, if_neg hend]
  · intro n c now h1 h2
    rw [sourceNode_advance_state, h1, h2]
    exact preroll_adv_initial_starting_iff c n.end_time now
  · intro n c now h1 h2 hend
    rw [sourceNode_advance_state, h1, h2]
    exact preroll_adv_initial_started_iff c n.end_time now hend
  · intro n now h1
    unfold SourceNode.schedule_transition_due
    rw [sourceNode_advance_state, h1]
    exact preroll_started_stop_iff n.cue_time n.end_time now
  · intro mx now h1 h2 hend
    rw [mixerNode_advance_state, h1, h2, preroll_advance_initial_none, if_neg hend]
  · intro mx c now h1 h2
    rw [mixerNode_advance_state, h1, h2]
    exact preroll_adv_initial_starting_iff c mx.end_time now
  · intro mx c now h1 h2 hend
    rw [mixerNode_advance_state, h1, h2]
    exact preroll_adv_initial_started_iff c mx.end_time now hend
  · intro mx now h1
    unfold MixerNode.schedule_transition_due
    rw [mixerNode_advance_state, h1]
    exact preroll_started_stop_iff mx.cue_time mx.end_time now
  · intro n now h1 h2 hend
    rw [videoGenNode_advance_state, h1, h2, preroll_advance_initial_none,
      if_neg hend]
  · intro n c now h1 h2
    rw [videoGenNode_advance_state, h1, h2]
    exact preroll_adv_initial_starting_iff c n.end_time now
  · intro n c now h1 h2 hend
    rw [videoGenNode_advance_state, h1, h2]
    exact preroll_adv_initial_started_iff c n.end_time now hend
  · intro n now h1
    unfold VideoGeneratorNode.schedule_transition_due
    rw [videoGenNode_advance_state, h1]
    exact preroll_started_stop_iff n.cue_time n.end_time now

/-- Witness for C2: a source with cue at 20000 ms advanced at 15000 ms
(inside the 10 s preroll window) is `Starting`. -/
theorem C2_preroll_state_machines_witness :
    (({ SourceNode.new "s" "file:///a.mp4" true true with cue_time := some 20000 } :
        SourceNode).advance_schedule 15000).state = State.Starting :=
  (C2_preroll_state_machines.2.1
    { SourceNode.new "s" "file:///a.mp4" true true with cue_time := some 20000 }
    20000 15000 rfl rfl).mpr (by decide)

/-! ## Claim C3: destination state machine -/

/-- Claim C3 counterexample: the claim says a destination that enters
`Starting` moves to `Started` only in the next refresh; but
`schedule_transition_due` returns `Some(Started)` unconditionally from
`Starting`, so the `while` loop of a single `advance_schedule` pass takes
a destination whose cue has passed from `Initial` through `Starting`
straight to `Started`. -/
theorem C3_destination_schedule_counterexample :
    (({ DestinationNode.new "d" DestinationFamily.LocalPlayback false true with
        cue_time := some 0 } : DestinationNode).advance_schedule 1).state =
      State.Started ∧ State.Started ≠ State.Starting := by
  constructor
  · decide
  · decide

/-- Claim C3 (amended): the destination machine has no preroll lead: from
`Initial` the due transition is `Starting` exactly when the cue is absent
or reached; from `Starting` the due transition is always `Started` (so a
single `advance_schedule` pass continues through it: from `Initial` with
the cue reached the pass ends in `Started`, or `Stopped` when the end has
also passed); from `Started` the due transition is `Stopping` exactly
when the end time is set and reached. -/
theorem C3_destination_schedule :
    (∀ (d : DestinationNode) (now : Int), d.state = State.Initial →
        (d.schedule_transition_due now = some State.Starting ↔
          cueReached d.cue_time now = true)) ∧
    (∀ (d : DestinationNode) (now : Int), d.state = State.Starting →
        d.schedule_transition_due now = some State.Started) ∧
    (∀ (d : DestinationNode) (now : Int), d.state = State.Started →
        (d.schedule_transition_due now = some State.Stopping ↔
          endReached d.end_time now = true)) ∧
    (∀ (d : DestinationNode) (now : Int), d.state = State.Initial →
        (d.advance_schedule now).state =
          (if cueReached d.cue_time now then
             (if endReached d.end_time now then State.Stopped else State.Started)
           else State.Initial)) := by
  refine ⟨?_, ?_, ?_, ?_⟩
  · intro d now h1
    unfold DestinationNode.schedule_transition_due
    rw [h1]
    by_cases hc : cueReached d.cue_time now = true
    · simp [dest_transition_due, hc]
    · simp [dest_transition_due, hc]
  · intro d now h1
    unfold DestinationNode.schedule_transition_due
    rw [h1]
    rfl
  · intro d now h1
    unfold DestinationNode.schedule_transition_due
    rw [h1]
    by_cases he : endReached d.end_time now = true
    · simp [dest_transition_due, he]
    · simp [dest_transition_due, he]
  · intro d now h1
    rw [destNode_advance_state, h1, dest_advance_initial]

/-- Witness for C3 (amended): a destination in `Initial` with cue at 5 ms
has `Starting` due at 7 ms. -/
theorem C3_destination_schedule_witness :
    ({ DestinationNode.new "d" DestinationFamily.LocalPlayback false true with
        cue_time := some 5 } : DestinationNode).schedule_transition_due 7 =
      some State.Starting :=
  (C3_destination_schedule.1
    { DestinationNode.new "d" DestinationFamily.LocalPlayback false true with
      cue_time := some 5 } 7 rfl).mpr (by decide)

/-! ## Claim C5: destination start precondition -/

/-- Claim C5: scheduling a destination whose enabled audio (resp. video)
medium has no connected slot fails with an error message containing
"audio slot connected" (resp. "video slot connected") and returns the
node completely unchanged (in particular `cue_time`, `end_time` and
`state` are untouched). -/
theorem C5_destination_start_precondition :
    (∀ (d : DestinationNode) (cue et : Option Int) (now : Int),
        d.audio_enabled = true → d.audio_slot_id = none →
        ∃ msg pre post,
          d.schedule cue et now = (Except.error msg, d) ∧
          msg = pre ++ "audio slot connected" ++ post) ∧
    (∀ (d : DestinationNode) (cue et : Option Int) (now : Int),
        d.video_enabled = true → d.video_slot_id = none →
        (d.audio_enabled = true → d.audio_slot_id ≠ none) →
        ∃ msg pre post,
          d.schedule cue et now = (Except.error msg, d) ∧
          msg = pre ++ "video slot connected" ++ post) := by
  constructor
  · intro d cue et now h1 h2
    refine ⟨"Destination " ++ d.id ++
        " must have its audio slot connected before starting",
      "Destination " ++ d.id ++ " must have its ", " before starting", ?_, ?_⟩
    · have hready : d.ensure_start_ready = Except.error ("Destination " ++ d.id ++
          " must have its audio slot connected before starting") := by
        unfold DestinationNode.ensure_start_ready
        rw [if_pos ⟨h1, h2⟩]
      unfold DestinationNode.schedule
      rw [hready]
    · simp only [String.append_assoc]
      rfl
  · intro d cue et now h1 h2 h3
    refine ⟨"Destination " ++ d.id ++
        " must have its video slot connected before starting",
      "Destination " ++ d.id ++ " must have its ", " before starting", ?_, ?_⟩
    · have hready : d.ensure_start_ready = Except.error ("Destination " ++ d.id ++
          " must have its video slot connected before starting") := by
        unfold DestinationNode.ensure_start_ready
        rw [if_neg (fun hc => h3 hc.1 hc.2), if_pos ⟨h1, h2⟩]
      unfold DestinationNode.schedule
      rw [hready]
    · simp only [String.append_assoc]
      rfl

/-- Witness for C5: a fresh audio+video destination with no slots
connected cannot be scheduled. -/
theorem C5_destination_start_precondition_witness :
    ∃ msg pre post,
      (DestinationNode.new "d" DestinationFamily.LocalPlayback true true).schedule
          none none 0 =
        (Except.error msg, DestinationNode.new "d" DestinationFamily.LocalPlayback
          true true) ∧
      msg = pre ++ "audio slot connected" ++ post :=
  C5_destination_start_precondition.1
    (DestinationNode.new "d" DestinationFamily.LocalPlayback true true) none none 0
    rfl rfl

/-! ## Claim C4: failed connects and graph mutation -/

/-- Projection used to observe a destination's audio slot through the
manager: `some slot` when `id` is a destination node, `none` otherwise. -/
def destAudioSlotOf (m : NodeManager) (id : String) : Option (Option String) :=
  (SMap.get? m.nodes id).bind (fun n =>
    match n with
    | NodeRecord.Destination dest => some dest.audio_slot_id
    | _ => none)

/-- The failing input: a source and an audio+video destination, a
video-only link taking the destination's video slot, then the rejected
audio+video connect. -/
def c4manager : NodeManager :=
  (((NodeManager.default.dispatch 0
    (Command.CreateSource "s" "file:///a.mp4" true true)).2.dispatch 0
    (Command.CreateDestination "d" DestinationFamily.LocalPlayback true true)).2.dispatch 0
    (Command.Connect "L1" "s" "d" false true none)).2

/-- The dispatch of the rejected connect on the failing input. -/
def c4step : CommandResult × NodeManager :=
  c4manager.dispatch 0 (Command.Connect "L2" "s" "d" true true none)

/-- Claim C4 evaluated at the failing input: an audio+video `Connect` to a
destination whose video slot is already taken returns `Error`, yet the
destination's audio slot — free before the call — is left assigned to the
rejected link id, and the link itself is never registered.
`DestinationNode::connect_input` assigns the audio slot before checking
the video slot, through the `get_mut` borrow, so the partial mutation
persists past the error return, contradicting the spec's "Validation
errors never mutate state". -/
theorem C4_connect_error_mutation :
    c4step.1 = CommandResult.Error "Destination d already has a video input slot" ∧
    destAudioSlotOf c4manager "d" = some none ∧
    destAudioSlotOf c4step.2 "d" = some (some "L2") ∧
    SMap.containsKey c4step.2.links "L2" = false := by
  decide

/-! ## Claim C7: mixer config validation -/

/-- When some entry of the config fails validation, the config loop of
`MixerNode::new` fails with the error of one of the failing entries. -/
lemma apply_mixer_config_error :
    ∀ (entries : List (String × JsonValue)) (settings : SMap JsonValue),
      (∃ p ∈ entries, ∃ e, validate_setting_value p.1 p.2 = Except.error e) →
      ∃ p ∈ entries, ∃ e, validate_setting_value p.1 p.2 = Except.error e ∧
        apply_mixer_config settings entries = Except.error e := by
  intro entries
  induction entries with
  | nil => intro settings h; obtain ⟨p, hp, _⟩ := h; cases hp
  | cons kv rest ih =>
    intro settings h
    cases hval : validate_setting_value kv.1 kv.2 with
    | error e =>
      refine ⟨kv, List.mem_cons_self kv rest, e, hval, ?_⟩
      show apply_mixer_config settings (kv :: rest) = Except.error e
      rw [show apply_mixer_config settings (kv :: rest) =
          (match validate_setting_value kv.1 kv.2 with
           | Except.error e => Except.error e
           | Except.ok _ => apply_mixer_config (SMap.insert settings kv.1 kv.2) rest)
        from by rw [apply_mixer_config], hval]
    | ok u =>
      obtain ⟨p, hp, e, he⟩ := h
      have hpr : p ∈ rest := by
        rcases List.mem_cons.mp hp with rfl | hr
        · rw [hval] at he; cases he
        · exact hr
      obtain ⟨q, hq, e', he', happ⟩ :=
        ih (SMap.insert settings kv.1 kv.2) ⟨p, hpr, e, he⟩
      refine ⟨q, List.mem_cons_of_mem kv hq, e', he', ?_⟩
      show apply_mixer_config settings (kv :: rest) = Except.error e'
      rw [show apply_mixer_config settings (kv :: rest) =
          (match validate_setting_value kv.1 kv.2 with
           | Except.error e => Except.error e
           | Except.ok _ => apply_mixer_config (SMap.insert settings kv.1 kv.2) rest)
        from by rw [apply_mixer_config], hval]
      exact happ

/-- Claim C7: the mixer settings bag is validated on creation: an unknown
key `k` fails with "No setting with name k on mixers"; a non-numeric value
for a numeric setting and a non-string `fallback-image` fail with the type
diagnostic; and a `CreateMixer` whose config contains any invalid entry
returns that entry's validation `Error` and leaves the manager — in
particular the nodes map — unchanged, so no mixer is inserted. -/
theorem C7_mixer_config_validation :
    (∀ (k : String) (v : JsonValue),
        k ∉ ["width", "height", "sample-rate", "fallback-image", "fallback-timeout"] →
        validate_setting_value k v =
          Except.error ("No setting with name " ++ k ++ " on mixers")) ∧
    (∀ (k : String) (v : JsonValue),
        k ∈ ["width", "height", "sample-rate", "fallback-timeout"] →
        v.is_number = false →
        validate_setting_value k v =
          Except.error ("Setting `" ++ k ++ "` expects a numeric value")) ∧
    (∀ (v : JsonValue), v.is_string = false →
        validate_setting_value "fallback-image" v =
          Except.error "Setting `fallback-image` expects a string value") ∧
    (∀ (m : NodeManager) (id : String) (cfg : SMap JsonValue)
        (audio_enabled video_enabled : Bool),
        SMap.containsKey m.nodes id = false →
        (audio_enabled = true ∨ video_enabled = true) →
        (∃ p ∈ SMap.entries cfg, ∃ e,
          validate_setting_value p.1 p.2 = Except.error e) →
        ∃ p ∈ SMap.entries cfg, ∃ e,
          validate_setting_value p.1 p.2 = Except.error e ∧
          m.create_mixer id (some cfg) audio_enabled video_enabled =
            (CommandResult.Error e, m) ∧
          SMap.containsKey
            (m.create_mixer id (some cfg) audio_enabled video_enabled).2.nodes id =
            false) := by
  refine ⟨?_, ?_, ?_, ?_⟩
  · intro k v hk
    unfold validate_setting_value
    split <;> simp_all
  · intro k v hk hv
    simp only [List.mem_cons, List.mem_singleton, List.not_mem_nil, or_false] at hk
    rcases hk with rfl | rfl | rfl | rfl <;>
      simp [validate_setting_value, hv]
  · intro v hv
    simp [validate_setting_value, hv]
  · intro m id cfg ab vb h1 h2 h3
    obtain ⟨p, hp, e, he, happ⟩ :=
      apply_mixer_config_error (SMap.entries cfg) mixerDefaultSettings h3
    have hnew : MixerNode.new id (some cfg) ab vb = Except.error e := by
      unfold MixerNode.new
      simp only []
      rw [happ]
    have hneg : ¬ (¬ ab = true ∧ ¬ vb = true) := by
      rcases h2 with h2 | h2 <;> simp [h2]
    have hcm : m.create_mixer id (some cfg) ab vb = (CommandResult.Error e, m) := by
      unfold NodeManager.create_mixer NodeManager.ensure_unique_id
      rw [h1]
      simp only [Bool.false_eq_true, if_false]
      rw [if_neg hneg, hnew]
    exact ⟨p, hp, e, he, hcm, by rw [hcm]; exact h1⟩

/-- Witness for C7: creating a mixer with the unknown setting `bogus`
fails with the validation message and inserts nothing. -/
theorem C7_mixer_config_validation_witness :
    ∃ p ∈ SMap.entries ([("bogus", JsonValue.num 1)] : SMap JsonValue), ∃ e,
      validate_setting_value p.1 p.2 = Except.error e ∧
      NodeManager.default.create_mixer "m1"
          (some [("bogus", JsonValue.num 1)]) true true =
        (CommandResult.Error e, NodeManager.default) ∧
      SMap.containsKey (NodeManager.default.create_mixer "m1"
          (some [("bogus", JsonValue.num 1)]) true true).2.nodes "m1" = false :=
  C7_mixer_config_validation.2.2.2 NodeManager.default "m1"
    [("bogus", JsonValue.num 1)] true true rfl (Or.inl rfl)
    ⟨("bogus", JsonValue.num 1), by decide,
      "No setting with name bogus on mixers", rfl⟩

/-! ## Lookup lemmas for the string-map model -/

lemma SMap.get?_insert_self {α : Type} (m : SMap α) (k : String) (v : α) :
    SMap.get? (SMap.insert m k v) k = some v := by
  unfold SMap.insert
  by_cases hc : SMap.containsKey m k = true
  · rw [if_pos hc]
    unfold SMap.containsKey SMap.entries at hc
    unfold SMap.get? SMap.entries
    induction m with
    | nil => cases hc
    | cons e l ih =>
      simp only [List.map_cons]
      by_cases he : (e.1 == k) = true
      · rw [if_pos he, List.find?_cons_of_pos _ (by simp)]
        rfl
      · rw [if_neg he, List.find?_cons_of_neg _ (by simpa using he)]
        have hc' : List.any l (fun e => e.1 == k) = true := by
          rw [List.any_cons] at hc
          rcases Bool.or_eq_true_iff.mp hc with h | h
          · exact absurd h he
          · exact h
        exact ih hc'
  · rw [if_neg hc]
    unfold SMap.containsKey SMap.entries at hc
    unfold SMap.get? SMap.entries
    rw [List.find?_append]
    have hnone : List.find? (fun e => e.1 == k) m = none := by
      rw [List.find?_eq_none]
      intro x hx hpx
      exact hc (List.any_eq_true.mpr ⟨x, hx, hpx⟩)
    rw [hnone, List.find?_cons_of_pos _ (by simp)]
    rfl

lemma SMap.get?_insert_ne {α : Type} (m : SMap α) (k k' : String) (v : α)
    (hne : k' ≠ k) :
    SMap.get? (SMap.insert m k v) k' = SMap.get? m k' := by
  have hkk' : ¬ (k = k') := fun h => hne h.symm
  unfold SMap.insert
  by_cases hc : SMap.containsKey m k = true
  · rw [if_pos hc]
    clear hc
    unfold SMap.get? SMap.entries
    induction m with
    | nil => rfl
    | cons e l ih =>
      simp only [List.map_cons]
      by_cases he : (e.1 == k) = true
      · have he' : e.1 = k := by simpa using he
        rw [if_pos he, List.find?_cons_of_neg _ (by simp [hkk']),
          List.find?_cons_of_neg _ (by simp [he', hkk'])]
        exact ih
      · rw [if_neg he]
        by_cases hpe : e.1 = k'
        · rw [List.find?_cons_of_pos _ (by simp [hpe]),
            List.find?_cons_of_pos _ (by simp [hpe])]
        · rw [List.find?_cons_of_neg _ (by simp [hpe]),
            List.find?_cons_of_neg _ (by simp [hpe])]
          exact ih
  · rw [if_neg hc]
    unfold SMap.get? SMap.entries
    rw [List.find?_append]
    cases hf : List.find? (fun e => e.1 == k') m with
    | some x => rfl
    | none =>
      rw [List.find?_cons_of_neg _ (by simp [hkk'])]
      rfl

lemma SMap.get?_erase_self {α : Type} (m : SMap α) (k : String) :
    SMap.get? (SMap.erase m k) k = none := by
  unfold SMap.get? SMap.erase SMap.entries
  have hnone : (List.filter (fun e => e.1 != k) m).find? (fun e => e.1 == k) = none := by
    rw [List.find?_eq_none]
    intro x hx hpx
    have hmem := List.of_mem_filter hx
    simp at hmem hpx
    exact hmem hpx
  rw [hnone]
  rfl

lemma SMap.get?_erase_ne {α : Type} (m : SMap α) (k k' : String) (hne : k' ≠ k) :
    SMap.get? (SMap.erase m k) k' = SMap.get? m k' := by
  have hkk' : ¬ (k = k') := fun h => hne h.symm
  unfold SMap.get? SMap.erase SMap.entries
  induction m with
  | nil => rfl
  | cons e l ih =>
    by_cases he : e.1 = k
    · rw [List.filter_cons_of_neg (by simp [he]),
        List.find?_cons_of_neg _ (by simp [he, hkk'])]
      exact ih
    · rw [List.filter_cons_of_pos (by simp [he])]
      by_cases hpe : e.1 = k'
      · rw [List.find?_cons_of_pos _ (by simp [hpe]),
          List.find?_cons_of_pos _ (by simp [hpe])]
      · rw [List.find?_cons_of_neg _ (by simp [hpe]),
          List.find?_cons_of_neg _ (by simp [hpe])]
        exact ih

lemma SMap.containsKey_erase_self {α : Type} (m : SMap α) (k : String) :
    SMap.containsKey (SMap.erase m k) k = false := by
  unfold SMap.containsKey SMap.erase SMap.entries
  rw [Bool.eq_false_iff]
  intro hany
  obtain ⟨x, hx, hpx⟩ := List.any_eq_true.mp hany
  have := List.of_mem_filter hx
  simp at this hpx
  exact this hpx

/-! ## Claim C8: stream bridge contract -/

/-- Claim C8: the `StreamBridge` contract. `add_consumer(id, c)` stores
`c` under `id`, propagating the cached caps to it when present, and
touches nothing else; `remove_consumer(id)` removes exactly the consumer
under `id`; `clear()` empties the consumers, drops the cached caps and
detaches the current producer sink (returned with its callbacks reset);
`attach_sink(s)` on the already-attached sink is a no-op, and on a
different sink installs `s`, clears the cached caps, keeps the consumers
and detaches the prior producer. -/
theorem C8_stream_bridge_contract :
    (∀ (b : StreamBridge) (id : String) (c : AppSrcM), b.last_caps = none →
        SMap.get? (b.add_consumer id c).consumers id = some c) ∧
    (∀ (b : StreamBridge) (id : String) (c : AppSrcM) (caps : Caps),
        b.last_caps = some caps →
        SMap.get? (b.add_consumer id c).consumers id =
          some { c with caps := some caps }) ∧
    (∀ (b : StreamBridge) (id id' : String) (c : AppSrcM), id' ≠ id →
        SMap.get? (b.add_consumer id c).consumers id' = SMap.get? b.consumers id') ∧
    (∀ (b : StreamBridge) (id : String) (c : AppSrcM),
        (b.add_consumer id c).attached_sink = b.attached_sink ∧
        (b.add_consumer id c).last_caps = b.last_caps) ∧
    (∀ (b : StreamBridge) (id : String),
        SMap.get? (b.remove_consumer id).consumers id = none) ∧
    (∀ (b : StreamBridge) (id id' : String), id' ≠ id →
        SMap.get? (b.remove_consumer id).consumers id' = SMap.get? b.consumers id') ∧
    (∀ (b : StreamBridge) (id : String),
        (b.remove_consumer id).attached_sink = b.attached_sink ∧
        (b.remove_consumer id).last_caps = b.last_caps) ∧
    (∀ b : StreamBridge,
        (b.clear).1.consumers = SMap.nil ∧ (b.clear).1.last_caps = none ∧
        (b.clear).1.attached_sink = none ∧ (b.clear).2 = b.attached_sink) ∧
    (∀ (b : StreamBridge) (s : AppSinkM), b.attached_sink = some s →
        b.attach_sink s = (b, none)) ∧
    (∀ (b : StreamBridge) (s : AppSinkM), b.attached_sink ≠ some s →
        (b.attach_sink s).1.attached_sink = some s ∧
        (b.attach_sink s).1.last_caps = none ∧
        (b.attach_sink s).1.consumers = b.consumers ∧
        (b.attach_sink s).2 = b.attached_sink) := by
  refine ⟨?_, ?_, ?_, ?_, ?_, ?_, ?_, ?_, ?_, ?_⟩
  · intro b id c hcaps
    unfold StreamBridge.add_consumer
    rw [hcaps]
    exact SMap.get?_insert_self b.consumers id c
  · intro b id c caps hcaps
    unfold StreamBridge.add_consumer
    rw [hcaps]
    exact SMap.get?_insert_self b.consumers id _
  · intro b id id' c hne
    unfold StreamBridge.add_consumer
    cases b.last_caps <;> exact SMap.get?_insert_ne b.consumers id id' _ hne
  · intro b id c
    unfold StreamBridge.add_consumer
    cases b.last_caps <;> exact ⟨rfl, rfl⟩
  · intro b id
    exact SMap.get?_erase_self b.consumers id
  · intro b id id' hne
    exact SMap.get?_erase_ne b.consumers id id' hne
  · intro b id
    exact ⟨rfl, rfl⟩
  · intro b
    exact ⟨rfl, rfl, rfl, rfl⟩
  · intro b s hs
    unfold StreamBridge.attach_sink
    rw [if_pos hs]
  · intro b s hs
    unfold StreamBridge.attach_sink
    rw [if_neg hs]
    exact ⟨rfl, rfl, rfl, rfl⟩

/-- Witness for C8: attaching a second sink to a bridge detaches the
first and clears the cached caps. -/
theorem C8_stream_bridge_contract_witness :
    (({ consumers := SMap.nil, attached_sink := some "sink1",
        last_caps := some "video/x-raw" } : StreamBridge).attach_sink
      "sink2").1.attached_sink = some "sink2" ∧
    (({ consumers := SMap.nil, attached_sink := some "sink1",
        last_caps := some "video/x-raw" } : StreamBridge).attach_sink
      "sink2").1.last_caps = none :=
  have h := C8_stream_bridge_contract.2.2.2.2.2.2.2.2.2
    { consumers := SMap.nil, attached_sink := some "sink1"
      last_caps := some "video/x-raw" } "sink2" (by decide)
  ⟨h.1, h.2.1⟩

/-! ## Claim C10: control-point removal -/

lemma smap_replace_id {α : Type} (k : String) (v : α) :
    ∀ l : List (String × α), k ∉ l.map Prod.fst →
      l.map (fun e => if e.1 == k then (k, v) else e) = l := by
  intro l
  induction l with
  | nil => intro _; rfl
  | cons e l ih =>
    intro hk
    rw [List.map_cons, List.mem_cons] at hk
    push_neg at hk
    simp only [List.map_cons]
    rw [if_neg (by simp only [beq_iff_eq]; exact fun h => hk.1 h.symm), ih hk.2]

lemma SMap.insert_of_get? {α : Type} (m : SMap α) (k : String) (v : α)
    (hnd : List.Nodup (SMap.keys m)) (h : SMap.get? m k = some v) :
    SMap.insert m k v = m := by
  have hc : SMap.containsKey m k = true := by
    unfold SMap.get? at h
    unfold SMap.containsKey
    cases hf : (SMap.entries m).find? (fun e => e.1 == k) with
    | none => rw [hf] at h; cases h
    | some x =>
      have hx := List.find?_some hf
      exact List.any_eq_true.mpr ⟨x, List.mem_of_find?_eq_some hf, hx⟩
  unfold SMap.insert
  rw [if_pos hc]
  clear hc
  unfold SMap.get? at h
  unfold SMap.entries at h ⊢
  unfold SMap.keys SMap.entries at hnd
  induction m with
  | nil => cases h
  | cons e l ih =>
    rw [List.map_cons, List.nodup_cons] at hnd
    simp only [List.map_cons]
    by_cases he : e.1 = k
    · rw [List.find?_cons_of_pos _ (by simp [he])] at h
      have hv : e.2 = v := by simpa using h
      rw [if_pos (by simp [he]), smap_replace_id k v l (he ▸ hnd.1), ← he, ← hv]
    · rw [List.find?_cons_of_neg _ (by simp [he])] at h
      rw [if_neg (by simp [he]), ih hnd.2 h]

lemma SMap.update_id {α : Type} (m : SMap α) (k : String) (f : α → α)
    (h : ∀ e ∈ SMap.entries m, e.1 = k → f e.2 = e.2) :
    SMap.update m k f = m := by
  unfold SMap.update
  unfold SMap.entries at h ⊢
  induction m with
  | nil => rfl
  | cons e l ih =>
    simp only [List.map_cons]
    by_cases he : e.1 = k
    · rw [if_pos (by simp [he]), h e (List.mem_cons_self e l) he,
        ih (fun e2 he2 hk2 => h e2 (List.mem_cons_of_mem e he2) hk2)]
    · rw [if_neg (by simp [he]),
        ih (fun e2 he2 hk2 => h e2 (List.mem_cons_of_mem e he2) hk2)]

lemma foldl_preserve_proj {β γ : Type} (g : MixerNode → γ) (f : MixerNode → β → MixerNode)
    (hf : ∀ mx b, g (f mx b) = g mx) :
    ∀ (us : List β) (mx : MixerNode), g (us.foldl f mx) = g mx := by
  intro us
  induction us with
  | nil => intro mx; rfl
  | cons u us ih => intro mx; rw [List.foldl_cons, ih, hf]

/-- `apply_control_points` writes only `settings`, `slot_settings` and
`slots`: the series maps themselves are untouched. -/
lemma apply_control_points_cps (mx : MixerNode) (now : Int) :
    (mx.apply_control_points now).control_points = mx.control_points := by
  simp only [MixerNode.apply_control_points]
  exact (foldl_preserve_proj (fun n => n.control_points) _ (by
    intro n b
    obtain ⟨s, p, v⟩ := b
    dsimp only
    split <;> rfl) _ _).trans rfl

lemma apply_control_points_scps (mx : MixerNode) (now : Int) :
    (mx.apply_control_points now).slot_control_points = mx.slot_control_points := by
  simp only [MixerNode.apply_control_points]
  exact (foldl_preserve_proj (fun n => n.slot_control_points) _ (by
    intro n b
    obtain ⟨s, p, v⟩ := b
    dsimp only
    split <;> rfl) _ _).trans rfl

/-- With no point of the targeted series carrying the controller id, the
`retain` is the identity and removal reduces to the unconditional
`apply_control_points` call. -/
lemma remove_control_point_no_match (mx : MixerNode) (cid prop : String) (now : Int)
    (h : ∀ e ∈ SMap.entries mx.control_points, e.1 = prop → ∀ p ∈ e.2, p.id ≠ cid) :
    mx.remove_control_point cid prop now = mx.apply_control_points now := by
  unfold MixerNode.remove_control_point
  rw [SMap.update_id mx.control_points prop _ (fun e he hk => List.filter_eq_self.mpr
    (fun p hp => by simpa using h e he hk p hp))]

lemma remove_slot_control_point_no_match (mx : MixerNode) (cid slot prop : String)
    (now : Int)
    (h : ∀ e ∈ SMap.entries mx.slot_control_points, e.1 = slot →
      ∀ e2 ∈ SMap.entries e.2, e2.1 = prop → ∀ p ∈ e2.2, p.id ≠ cid) :
    mx.remove_slot_control_point cid slot prop now = mx.apply_control_points now := by
  unfold MixerNode.remove_slot_control_point
  rw [SMap.update_id mx.slot_control_points slot
    (fun slotm => SMap.update slotm prop
      (fun pts => pts.filter (fun point => point.id ≠ cid)))
    (fun e he hk =>
      SMap.update_id e.2 prop
        (fun pts => pts.filter (fun point => point.id ≠ cid))
        (fun e2 he2 hk2 => List.filter_eq_self.mpr
          (fun p hp => by simpa using h e he hk e2 he2 hk2 p hp)))]

/-- Claim C10: removing a control point never fails for a valid target
and is a no-op when the controller id matches nothing. At the node level
a no-match removal is exactly the unconditional `apply_control_points`
call, so the series maps are unchanged; at the manager level, on a mixer
node (or mixer-sink link) whose state is a fixpoint of
`apply_control_points` at `now`, a no-match `RemoveControlPoint` returns
`Success` with the manager unchanged; a controllee id that names neither
a node nor a link, or a node that is not a mixer, yields an `Error`. -/
theorem C10_remove_control_point :
    (∀ (mx : MixerNode) (cid prop : String) (now : Int),
        (∀ e ∈ SMap.entries mx.control_points, e.1 = prop →
          ∀ p ∈ e.2, p.id ≠ cid) →
        mx.remove_control_point cid prop now = mx.apply_control_points now ∧
        (mx.remove_control_point cid prop now).control_points = mx.control_points) ∧
    (∀ (mx : MixerNode) (cid slot prop : String) (now : Int),
        (∀ e ∈ SMap.entries mx.slot_control_points, e.1 = slot →
          ∀ e2 ∈ SMap.entries e.2, e2.1 = prop → ∀ p ∈ e2.2, p.id ≠ cid) →
        mx.remove_slot_control_point cid slot prop now = mx.apply_control_points now ∧
        (mx.remove_slot_control_point cid slot prop now).slot_control_points =
          mx.slot_control_points) ∧
    (∀ (m : NodeManager) (cid cid' prop : String) (now : Int) (mx : MixerNode),
        List.Nodup (SMap.keys m.nodes) →
        SMap.get? m.links cid' = none →
        SMap.get? m.nodes cid' = some (NodeRecord.Mixer mx) →
        (∀ e ∈ SMap.entries mx.control_points, e.1 = prop →
          ∀ p ∈ e.2, p.id ≠ cid) →
        mx.apply_control_points now = mx →
        m.remove_control_point cid cid' prop now = (CommandResult.Success, m)) ∧
    (∀ (m : NodeManager) (cid cid' prop : String) (now : Int) (link : LinkRecord)
        (mx : MixerNode),
        List.Nodup (SMap.keys m.nodes) →
        SMap.get? m.links cid' = some link →
        SMap.get? m.nodes link.sink_id = some (NodeRecord.Mixer mx) →
        (∀ e ∈ SMap.entries mx.slot_control_points, e.1 = cid' →
          ∀ e2 ∈ SMap.entries e.2, e2.1 = prop → ∀ p ∈ e2.2, p.id ≠ cid) →
        mx.apply_control_points now = mx →
        m.remove_control_point cid cid' prop now = (CommandResult.Success, m)) ∧
    (∀ (m : NodeManager) (cid cid' prop : String) (now : Int),
        SMap.get? m.links cid' = none →
        SMap.get? m.nodes cid' = none →
        m.remove_control_point cid cid' prop now =
          (CommandResult.Error ("No node or slot with id " ++ cid'), m)) ∧
    (∀ (m : NodeManager) (cid cid' prop : String) (now : Int) (nr : NodeRecord),
        SMap.get? m.links cid' = none →
        SMap.get? m.nodes cid' = some nr →
        (∀ mx, nr ≠ NodeRecord.Mixer mx) →
        m.remove_control_point cid cid' prop now =
          (CommandResult.Error
            ("Node control points are currently supported only for mixers; " ++
             cid' ++ " is not a mixer"), m)) := by
  refine ⟨?_, ?_, ?_, ?_, ?_, ?_⟩
  · intro mx cid prop now h
    refine ⟨remove_control_point_no_match mx cid prop now h, ?_⟩
    rw [remove_control_point_no_match mx cid prop now h]
    exact apply_control_points_cps mx now
  · intro mx cid slot prop now h
    refine ⟨remove_slot_control_point_no_match mx cid slot prop now h, ?_⟩
    rw [remove_slot_control_point_no_match mx cid slot prop now h]
    exact apply_control_points_scps mx now
  · intro m cid cid' prop now mx hnd hlinks hnodes hnm hstable
    have hrm : mx.remove_control_point cid prop now = mx := by
      rw [remove_control_point_no_match mx cid prop now hnm, hstable]
    unfold NodeManager.remove_control_point
    rw [hlinks, hnodes]
    dsimp only
    rw [hrm, SMap.insert_of_get? m.nodes cid' _ hnd hnodes]
  · intro m cid cid' prop now link mx hnd hlinks hnodes hnm hstable
    have hrm : mx.remove_slot_control_point cid cid' prop now = mx := by
      rw [remove_slot_control_point_no_match mx cid cid' prop now hnm, hstable]
    unfold NodeManager.remove_control_point
    rw [hlinks]
    dsimp only
    rw [hnodes]
    dsimp only
    rw [hrm, SMap.insert_of_get? m.nodes link.sink_id _ hnd hnodes]
  · intro m cid cid' prop now hlinks hnodes
    unfold NodeManager.remove_control_point
    rw [hlinks, hnodes]
  · intro m cid cid' prop now nr hlinks hnodes hne
    unfold NodeManager.remove_control_point
    rw [hlinks, hnodes]
    cases nr with
    | Mixer mx => exact absurd rfl (hne mx)
    | Source node => rfl
    | Destination node => rfl
    | VideoGenerator node => rfl

/-- A mixer state used to witness C10: the default settings bag and no
control points, a fixpoint of `apply_control_points`. -/
def c10mixer : MixerNode :=
  { id := "mx1", audio_enabled := true, video_enabled := true
    slots := SMap.nil
    video_consumer_slot_ids := [], audio_consumer_slot_ids := []
    cue_time := none, end_time := none, state := State.Initial
    settings := mixerDefaultSettings
    control_points := SMap.nil
    slot_settings := SMap.nil, slot_control_points := SMap.nil
    pipeline := MixerPipelineProfile.from_settings mixerDefaultSettings true true
      MixerPipelineStage.Idle
    last_error := none }

/-- Witness for C10: removing an unknown controller id from a mixer node
succeeds and leaves the manager unchanged. -/
theorem C10_remove_control_point_witness :
    ({ started := true, nodes := [("mx1", NodeRecord.Mixer c10mixer)],
       links := SMap.nil, media_bridges := SMap.nil } : NodeManager).remove_control_point
        "ghost" "mx1" "width" 5 =
      (CommandResult.Success,
       { started := true, nodes := [("mx1", NodeRecord.Mixer c10mixer)],
         links := SMap.nil, media_bridges := SMap.nil }) :=
  C10_remove_control_point.2.2.1
    { started := true, nodes := [("mx1", NodeRecord.Mixer c10mixer)],
      links := SMap.nil, media_bridges := SMap.nil }
    "ghost" "mx1" "width" 5 c10mixer (by decide) rfl rfl
    (fun e he => nomatch he) (by decide)

/-! ## Claim C6: remove cascade -/

lemma SMap.erase_of_get?_none {α : Type} (m : SMap α) (k : String)
    (h : SMap.get? m k = none) : SMap.erase m k = m := by
  unfold SMap.get? at h
  unfold SMap.erase SMap.entries
  cases hf : (SMap.entries m).find? (fun e => e.1 == k) with
  | some x => rw [hf] at h; cases h
  | none =>
    have hall := List.find?_eq_none.mp hf
    unfold SMap.entries at hall
    exact List.filter_eq_self.mpr (fun e he => by
      have := hall e he
      simpa using this)

lemma SMap.containsKey_mapValues {α : Type} (m : SMap α) (f : α → α) (k : String) :
    SMap.containsKey (SMap.mapValues m f) k = SMap.containsKey m k := by
  unfold SMap.containsKey SMap.mapValues SMap.entries
  rw [List.any_map]
  rfl

lemma SMap.get?_of_containsKey {α : Type} (m : SMap α) (k : String)
    (h : SMap.containsKey m k = true) : ∃ v, SMap.get? m k = some v := by
  unfold SMap.containsKey at h
  unfold SMap.get?
  obtain ⟨x, hx, hpx⟩ := List.any_eq_true.mp h
  cases hf : (SMap.entries m).find? (fun e => e.1 == k) with
  | none =>
    have := List.find?_eq_none.mp hf x hx
    exact absurd hpx this
  | some y => exact ⟨y.2, rfl⟩

lemma SMap.get?_some_mem {α : Type} (m : SMap α) (k : String) (v : α)
    (h : SMap.get? m k = some v) : ∃ x ∈ SMap.entries m, x.1 = k ∧ x.2 = v := by
  unfold SMap.get? at h
  cases hf : (SMap.entries m).find? (fun e => e.1 == k) with
  | none => rw [hf] at h; cases h
  | some x =>
    rw [hf] at h
    have hx1 := List.find?_some hf
    exact ⟨x, List.mem_of_find?_eq_some hf, by simpa using hx1, by simpa using h⟩

lemma bridge_key_eq_cases {s1 s2 m1 m2 : String}
    (h1 : m1 = "audio" ∨ m1 = "video") (h2 : m2 = "audio" ∨ m2 = "video")
    (h : bridge_key s1 m1 = bridge_key s2 m2) : s1 = s2 ∧ m1 = m2 := by
  unfold bridge_key at h
  rcases h1 with rfl | rfl <;> rcases h2 with rfl | rfl
  · have hd := congrArg String.data h
    simp only [String.data_append] at hd
    exact ⟨String.ext (List.append_inj' (List.append_inj' hd rfl).1 rfl).1, rfl⟩
  · have hd := congrArg String.data h
    simp only [String.data_append] at hd
    exact absurd (List.append_inj' hd (by decide)).2 (by decide)
  · have hd := congrArg String.data h
    simp only [String.data_append] at hd
    exact absurd (List.append_inj' hd (by decide)).2 (by decide)
  · have hd := congrArg String.data h
    simp only [String.data_append] at hd
    exact ⟨String.ext (List.append_inj' (List.append_inj' hd rfl).1 rfl).1, rfl⟩

lemma bridge_key_ne {s t m1 m2 : String}
    (h1 : m1 = "audio" ∨ m1 = "video") (h2 : m2 = "audio" ∨ m2 = "video")
    (h : s ≠ t ∨ m1 ≠ m2) : bridge_key s m1 ≠ bridge_key t m2 := by
  intro he
  obtain ⟨hs, hm⟩ := bridge_key_eq_cases h1 h2 he
  rcases h with h | h
  · exact h hs
  · exact h hm

lemma remove_media_bridge_link_links (m : NodeManager) (src lid : String) (a v : Bool) :
    (m.remove_media_bridge_link src lid a v).links = m.links := by
  unfold NodeManager.remove_media_bridge_link
  dsimp only
  have hstep : ∀ (x : NodeManager) (med : String),
      ((match SMap.get? x.media_bridges (bridge_key src med) with
        | none => x
        | some bridge =>
          let bridge := bridge.remove_consumer lid
          if bridge.has_consumers then
            { x with media_bridges :=
                SMap.insert x.media_bridges (bridge_key src med) bridge }
          else
            { x with media_bridges :=
                SMap.erase x.media_bridges (bridge_key src med) }) :
        NodeManager).links = x.links := by
    intro x med
    cases SMap.get? x.media_bridges (bridge_key src med) with
    | none => rfl
    | some bridge =>
      dsimp only
      split <;> rfl
  split
  · rw [hstep]
    split
    · rw [hstep]
    · rfl
  · split
    · rw [hstep]
    · rfl

lemma disconnect_links (m : NodeManager) (lid : String) :
    (m.disconnect lid).2.links = SMap.erase m.links lid := by
  unfold NodeManager.disconnect
  cases hf : SMap.get? m.links lid with
  | none =>
    dsimp only
    rw [SMap.erase_of_get?_none m.links lid hf]
  | some link =>
    dsimp only
    rw [remove_media_bridge_link_links]

/-- What `remove_media_bridge_link` does to the bridge entry at
`bridge_key n med`: when the disconnected link has source `n` and the
medium enabled, the consumer is dropped and an emptied bridge is removed;
every other key is untouched. -/
lemma rmbl_get? (m : NodeManager) (src lid : String) (a v : Bool) (n med : String)
    (hmed : med = "audio" ∨ med = "video") :
    SMap.get? (m.remove_media_bridge_link src lid a v).media_bridges
        (bridge_key n med) =
      (if src = n ∧ ((med = "audio" ∧ a = true) ∨ (med = "video" ∧ v = true)) then
        match SMap.get? m.media_bridges (bridge_key n med) with
        | none => none
        | some b =>
          if (b.remove_consumer lid).has_consumers then some (b.remove_consumer lid)
          else none
      else SMap.get? m.media_bridges (bridge_key n med)) := by
  unfold NodeManager.remove_media_bridge_link
  dsimp only
  have hstep_ne : ∀ (x : NodeManager) (med2 : String),
      bridge_key src med2 ≠ bridge_key n med →
      ((match SMap.get? x.media_bridges (bridge_key src med2) with
        | none => x
        | some bridge =>
          let bridge := bridge.remove_consumer lid
          if bridge.has_consumers then
            { x with media_bridges :=
                SMap.insert x.media_bridges (bridge_key src med2) bridge }
          else
            { x with media_bridges :=
                SMap.erase x.media_bridges (bridge_key src med2) }) :
        NodeManager).media_bridges.get? (bridge_key n med) =
      SMap.get? x.media_bridges (bridge_key n med) := by
    intro x med2 hne
    cases SMap.get? x.media_bridges (bridge_key src med2) with
    | none => rfl
    | some bridge =>
      dsimp only
      split
      · exact SMap.get?_insert_ne _ _ _ _ (fun h => hne h.symm)
      · exact SMap.get?_erase_ne _ _ _ (fun h => hne h.symm)
  have hstep_eq : ∀ (x : NodeManager), src = n →
      ((match SMap.get? x.media_bridges (bridge_key src med) with
        | none => x
        | some bridge =>
          let bridge := bridge.remove_consumer lid
          if bridge.has_consumers then
            { x with media_bridges :=
                SMap.insert x.media_bridges (bridge_key src med) bridge }
          else
            { x with media_bridges :=
                SMap.erase x.media_bridges (bridge_key src med) }) :
        NodeManager).media_bridges.get? (bridge_key n med) =
      (match SMap.get? x.media_bridges (bridge_key n med) with
       | none => none
       | some b =>
         if (b.remove_consumer lid).has_consumers then some (b.remove_consumer lid)
         else none) := by
    intro x hsrc
    subst hsrc
    cases hg : SMap.get? x.media_bridges (bridge_key src med) with
    | none => exact hg
    | some bridge =>
      dsimp only
      split
      · exact SMap.get?_insert_self _ _ _
      · exact SMap.get?_erase_self _ _
  rcases hmed with rfl | rfl
  · have hnev : ∀ y : String, bridge_key y "video" ≠ bridge_key n "audio" :=
      fun y => bridge_key_ne (Or.inr rfl) (Or.inl rfl) (Or.inr (by decide))
    by_cases hsrc : src = n
    · by_cases ha : a = true
      · rw [if_pos (show src = n ∧ (("audio" = "audio" ∧ a = true) ∨
            ("audio" = "video" ∧ v = true)) from ⟨hsrc, Or.inl ⟨rfl, ha⟩⟩)]
        by_cases hv : v = true
        · rw [if_pos ha, if_pos hv, hstep_ne _ "video" (hnev src)]
          exact hstep_eq m hsrc
        · rw [if_pos ha, if_neg hv]
          exact hstep_eq m hsrc
      · rw [if_neg (show ¬ (src = n ∧ (("audio" = "audio" ∧ a = true) ∨
            ("audio" = "video" ∧ v = true))) from fun hC => by
          rcases hC.2 with h2 | h2
          · exact ha h2.2
          · exact absurd h2.1 (by decide))]
        by_cases hv : v = true
        · rw [if_neg ha, if_pos hv]
          exact hstep_ne m "video" (hnev src)
        · rw [if_neg ha, if_neg hv]
    · rw [if_neg (show ¬ (src = n ∧ (("audio" = "audio" ∧ a = true) ∨
          ("audio" = "video" ∧ v = true))) from fun hC => hsrc hC.1)]
      have hnea : bridge_key src "audio" ≠ bridge_key n "audio" :=
        bridge_key_ne (Or.inl rfl) (Or.inl rfl) (Or.inl hsrc)
      by_cases ha : a = true <;> by_cases hv : v = true
      · rw [if_pos ha, if_pos hv, hstep_ne _ "video" (hnev src)]
        exact hstep_ne m "audio" hnea
      · rw [if_pos ha, if_neg hv]
        exact hstep_ne m "audio" hnea
      · rw [if_neg ha, if_pos hv]
        exact hstep_ne m "video" (hnev src)
      · rw [if_neg ha, if_neg hv]
  · have hnea : ∀ y : String, bridge_key y "audio" ≠ bridge_key n "video" :=
      fun y => bridge_key_ne (Or.inl rfl) (Or.inr rfl) (Or.inr (by decide))
    by_cases hsrc : src = n
    · by_cases hv : v = true
      · rw [if_pos (show src = n ∧ (("video" = "audio" ∧ a = true) ∨
            ("video" = "video" ∧ v = true)) from ⟨hsrc, Or.inr ⟨rfl, hv⟩⟩)]
        by_cases ha : a = true
        · rw [if_pos ha, if_pos hv, hstep_eq _ hsrc, hstep_ne m "audio" (hnea src)]
        · rw [if_neg ha, if_pos hv]
          exact hstep_eq m hsrc
      · rw [if_neg (show ¬ (src = n ∧ (("video" = "audio" ∧ a = true) ∨
            ("video" = "video" ∧ v = true))) from fun hC => by
          rcases hC.2 with h2 | h2
          · exact absurd h2.1 (by decide)
          · exact hv h2.2)]
        by_cases ha : a = true
        · rw [if_pos ha, if_neg hv]
          exact hstep_ne m "audio" (hnea src)
        · rw [if_neg ha, if_neg hv]
    · rw [if_neg (show ¬ (src = n ∧ (("video" = "audio" ∧ a = true) ∨
          ("video" = "video" ∧ v = true))) from fun hC => hsrc hC.1)]
      have hnev : bridge_key src "video" ≠ bridge_key n "video" :=
        bridge_key_ne (Or.inr rfl) (Or.inr rfl) (Or.inl hsrc)
      by_cases ha : a = true <;> by_cases hv : v = true
      · rw [if_pos ha, if_pos hv, hstep_ne _ "video" hnev]
        exact hstep_ne m "audio" (hnea src)
      · rw [if_pos ha, if_neg hv]
        exact hstep_ne m "audio" (hnea src)
      · rw [if_neg ha, if_pos hv]
        exact hstep_ne m "video" hnev
      · rw [if_neg ha, if_neg hv]

/-- Effect of a single `disconnect` on the bridge entry at
`bridge_key n med`. -/
lemma disconnect_bridges_get? (m : NodeManager) (lid : String) (n med : String)
    (hmed : med = "audio" ∨ med = "video") :
    SMap.get? (m.disconnect lid).2.media_bridges (bridge_key n med) =
      (match SMap.get? m.links lid with
       | none => SMap.get? m.media_bridges (bridge_key n med)
       | some link =>
         if link.src_id = n ∧ ((med = "audio" ∧ link.audio_enabled = true) ∨
             (med = "video" ∧ link.video_enabled = true)) then
           match SMap.get? m.media_bridges (bridge_key n med) with
           | none => none
           | some b =>
             if (b.remove_consumer lid).has_consumers then
               some (b.remove_consumer lid)
             else none
         else SMap.get? m.media_bridges (bridge_key n med)) := by
  unfold NodeManager.disconnect
  cases hf : SMap.get? m.links lid with
  | none => rfl
  | some link =>
    dsimp only
    exact rmbl_get? { m with links := SMap.erase m.links lid }
      link.src_id lid link.audio_enabled link.video_enabled n med hmed

/-- Bridge well-formedness relative to a pending list of link ids: every
consumer of the bridge at `bridge_key n med` is keyed by a pending link id
whose link record points at source `n` with the medium enabled, and the
bridge holds at least one consumer. -/
def BridgeWF (m : NodeManager) (n med : String) (ids : List String) : Prop :=
  ∀ b, SMap.get? m.media_bridges (bridge_key n med) = some b →
    SMap.entries b.consumers ≠ [] ∧
    ∀ c ∈ SMap.entries b.consumers, c.1 ∈ ids ∧
      ∃ link, SMap.get? m.links c.1 = some link ∧ link.src_id = n ∧
        (med = "audio" → link.audio_enabled = true) ∧
        (med = "video" → link.video_enabled = true)

lemma disconnect_preserves_wf (n med : String) (hmed : med = "audio" ∨ med = "video")
    (m : NodeManager) (lid : String) (rest : List String) (hlid : lid ∉ rest)
    (hwf : BridgeWF m n med (lid :: rest)) :
    BridgeWF (m.disconnect lid).2 n med rest := by
  intro b' hb'
  rw [disconnect_bridges_get? m lid n med hmed] at hb'
  have hlinks := disconnect_links m lid
  cases hf : SMap.get? m.links lid with
  | none =>
    rw [hf] at hb'
    dsimp only at hb'
    obtain ⟨hne, hall⟩ := hwf b' hb'
    refine ⟨hne, fun c hc => ?_⟩
    obtain ⟨hcin, link_c, hlc, hsrc, hma, hmv⟩ := hall c hc
    have hclid : c.1 ≠ lid := by
      intro h
      rw [h, hf] at hlc
      cases hlc
    refine ⟨?_, link_c, ?_, hsrc, hma, hmv⟩
    · rcases List.mem_cons.mp hcin with h | h
      · exact absurd h hclid
      · exact h
    · rw [hlinks, SMap.get?_erase_ne _ _ _ hclid]
      exact hlc
  | some link =>
    rw [hf] at hb'
    dsimp only at hb'
    by_cases hC : link.src_id = n ∧ ((med = "audio" ∧ link.audio_enabled = true) ∨
        (med = "video" ∧ link.video_enabled = true))
    · rw [if_pos hC] at hb'
      cases hg : SMap.get? m.media_bridges (bridge_key n med) with
      | none => rw [hg] at hb'; cases hb'
      | some b =>
        rw [hg] at hb'
        dsimp only at hb'
        by_cases hhc : (b.remove_consumer lid).has_consumers = true
        · rw [if_pos hhc] at hb'
          have hb'eq : b' = b.remove_consumer lid := (Option.some.inj hb').symm
          subst hb'eq
          obtain ⟨hne0, hall⟩ := hwf b hg
          constructor
          · intro hempty
            have hfalse : (b.remove_consumer lid).has_consumers = false := by
              unfold StreamBridge.has_consumers SMap.isEmpty
              rw [hempty]
              rfl
            rw [hfalse] at hhc
            cases hhc
          · intro c hc
            have hc2 : c ∈ SMap.entries b.consumers ∧ (c.1 != lid) = true :=
              List.mem_filter.mp hc
            have hclid : c.1 ≠ lid := by simpa using hc2.2
            obtain ⟨hcin, link_c, hlc, hsrc, hma, hmv⟩ := hall c hc2.1
            refine ⟨?_, link_c, ?_, hsrc, hma, hmv⟩
            · rcases List.mem_cons.mp hcin with h | h
              · exact absurd h hclid
              · exact h
            · rw [hlinks, SMap.get?_erase_ne _ _ _ hclid]
              exact hlc
        · rw [if_neg hhc] at hb'
          cases hb'
    · rw [if_neg hC] at hb'
      obtain ⟨hne0, hall⟩ := hwf b' hb'
      refine ⟨hne0, fun c hc => ?_⟩
      obtain ⟨hcin, link_c, hlc, hsrc, hma, hmv⟩ := hall c hc
      have hclid : c.1 ≠ lid := by
        intro h
        rw [h, hf] at hlc
        have hlc' : link = link_c := Option.some.inj hlc
        apply hC
        refine ⟨by rw [hlc']; exact hsrc, ?_⟩
        rcases hmed with rfl | rfl
        · exact Or.inl ⟨rfl, by rw [hlc']; exact hma rfl⟩
        · exact Or.inr ⟨rfl, by rw [hlc']; exact hmv rfl⟩
      refine ⟨?_, link_c, ?_, hsrc, hma, hmv⟩
      · rcases List.mem_cons.mp hcin with h | h
        · exact absurd h hclid
        · exact h
      · rw [hlinks, SMap.get?_erase_ne _ _ _ hclid]
        exact hlc

lemma bridge_cascade (n med : String) (hmed : med = "audio" ∨ med = "video") :
    ∀ (ids : List String) (m : NodeManager), List.Nodup ids →
      BridgeWF m n med ids →
      SMap.containsKey
        (ids.foldl (fun m lid => (m.disconnect lid).2) m).media_bridges
        (bridge_key n med) = false := by
  intro ids
  induction ids with
  | nil =>
    intro m _ hwf
    cases hck : SMap.containsKey m.media_bridges (bridge_key n med) with
    | false => exact hck
    | true =>
      obtain ⟨b, hb⟩ := SMap.get?_of_containsKey m.media_bridges _ hck
      obtain ⟨hne, hall⟩ := hwf b hb
      cases hcs : SMap.entries b.consumers with
      | nil => exact absurd hcs hne
      | cons c cs =>
        have : c ∈ SMap.entries b.consumers := by
          rw [hcs]; exact List.mem_cons_self c cs
        exact absurd (hall c this).1 (List.not_mem_nil c.1)
  | cons lid rest ih =>
    intro m hnd hwf
    rw [List.foldl_cons]
    rw [List.nodup_cons] at hnd
    exact ih _ hnd.2 (disconnect_preserves_wf n med hmed m lid rest hnd.1 hwf)

lemma foldl_disconnect_links : ∀ (ids : List String) (m : NodeManager),
    (ids.foldl (fun m lid => (m.disconnect lid).2) m).links =
      ids.foldl (fun l lid => SMap.erase l lid) m.links := by
  intro ids
  induction ids with
  | nil => intro m; rfl
  | cons lid rest ih =>
    intro m
    rw [List.foldl_cons, List.foldl_cons, ih, disconnect_links]

lemma foldl_erase_mem {α : Type} : ∀ (ids : List String) (l : SMap α) (e : String × α),
    e ∈ SMap.entries (ids.foldl (fun l lid => SMap.erase l lid) l) →
    e ∈ SMap.entries l ∧ e.1 ∉ ids := by
  intro ids
  induction ids with
  | nil => intro l e he; exact ⟨he, List.not_mem_nil e.1⟩
  | cons lid rest ih =>
    intro l e he
    rw [List.foldl_cons] at he
    obtain ⟨h1, h2⟩ := ih (SMap.erase l lid) e he
    have h3 := List.mem_filter.mp h1
    refine ⟨h3.1, ?_⟩
    rw [List.mem_cons]
    push_neg
    exact ⟨by simpa using h3.2, h2⟩

/-- `remove_node` on a present node: the stop/disconnect/erase cascade
succeeds, the node is gone, no link references it, and (under the bridge
well-formedness of reachable states) neither of its bridges survives. -/
lemma remove_node_spec (m : NodeManager) (n : String)
    (hn : SMap.containsKey m.nodes n = true)
    (hndl : List.Nodup (SMap.keys m.links))
    (hwf : ∀ med, med = "audio" ∨ med = "video" →
      ∀ b, SMap.get? m.media_bridges (bridge_key n med) = some b →
        SMap.entries b.consumers ≠ [] ∧
        ∀ c ∈ SMap.entries b.consumers,
          ∃ link, SMap.get? m.links c.1 = some link ∧ link.src_id = n ∧
            (med = "audio" → link.audio_enabled = true) ∧
            (med = "video" → link.video_enabled = true)) :
    ∃ m3, m.remove_node n = (CommandResult.Success, m3) ∧
      SMap.containsKey m3.nodes n = false ∧
      (∀ e ∈ SMap.entries m3.links, e.2.src_id ≠ n ∧ e.2.sink_id ≠ n) ∧
      SMap.containsKey m3.media_bridges (bridge_key n "audio") = false ∧
      SMap.containsKey m3.media_bridges (bridge_key n "video") = false := by
  set ids := ((SMap.entries m.links).filter
      (fun e => e.2.src_id == n || e.2.sink_id == n)).map Prod.fst with hidsdef
  set mstop : NodeManager :=
    { m with nodes := SMap.update m.nodes n NodeRecord.stop } with hmstopdef
  set mf := List.foldl (fun m lid => (m.disconnect lid).2) mstop ids with hmfdef
  have hids : List.Nodup ids :=
    List.Nodup.sublist ((List.filter_sublist _).map Prod.fst) hndl
  have hwf2 : ∀ med, med = "audio" ∨ med = "video" → BridgeWF mstop n med ids := by
    intro med hmed b hb
    obtain ⟨hne, hall⟩ := hwf med hmed b hb
    refine ⟨hne, fun c hc => ?_⟩
    obtain ⟨link, hlc, hsrc, hma, hmv⟩ := hall c hc
    refine ⟨?_, link, hlc, hsrc, hma, hmv⟩
    obtain ⟨x, hxmem, hx1, hx2⟩ := SMap.get?_some_mem m.links c.1 link hlc
    have hxf : x ∈ (SMap.entries m.links).filter
        (fun e => e.2.src_id == n || e.2.sink_id == n) :=
      List.mem_filter.mpr ⟨hxmem, by simp [hx2, hsrc]⟩
    rw [hidsdef, ← hx1]
    exact List.mem_map_of_mem Prod.fst hxf
  have hrn : m.remove_node n =
      (CommandResult.Success, { mf with nodes := SMap.erase mf.nodes n }) := by
    unfold NodeManager.remove_node
    rw [if_neg (by simp [hn])]
  have h0 : mf.links = ids.foldl (fun l lid => SMap.erase l lid) m.links := by
    rw [hmfdef]
    exact (foldl_disconnect_links ids mstop).trans rfl
  refine ⟨_, hrn, ?_, ?_, ?_, ?_⟩
  · exact SMap.containsKey_erase_self _ n
  · intro e he
    have he2 : e ∈ SMap.entries mf.links := he
    rw [h0] at he2
    obtain ⟨hmem, hnot⟩ := foldl_erase_mem _ m.links e he2
    rw [hidsdef] at hnot
    constructor
    · intro hsrc
      apply hnot
      apply List.mem_map_of_mem Prod.fst
      exact List.mem_filter.mpr ⟨hmem, by simp [hsrc]⟩
    · intro hsink
      apply hnot
      apply List.mem_map_of_mem Prod.fst
      exact List.mem_filter.mpr ⟨hmem, by simp [hsink]⟩
  · show SMap.containsKey mf.media_bridges (bridge_key n "audio") = false
    rw [hmfdef]
    exact bridge_cascade n "audio" (Or.inl rfl) ids mstop hids
      (hwf2 "audio" (Or.inl rfl))
  · show SMap.containsKey mf.media_bridges (bridge_key n "video") = false
    rw [hmfdef]
    exact bridge_cascade n "video" (Or.inr rfl) ids mstop hids
      (hwf2 "video" (Or.inr rfl))

/-- Claim C6: dispatching `Remove n` for a present node id returns
`Success`, removes `n` from the nodes map, leaves no link with `n` as
source or sink, and (for states whose bridges are well-formed: every
bridge keyed by `n` is nonempty and its consumers are link ids of links
sourced at `n` with the medium enabled, as `sync_media_links` maintains)
leaves no media bridge keyed `(n, audio)` or `(n, video)`. -/
theorem C6_remove_cascade :
    ∀ (m : NodeManager) (n : String) (now : Int),
      SMap.containsKey m.nodes n = true →
      List.Nodup (SMap.keys m.links) →
      (∀ med, med = "audio" ∨ med = "video" →
        ∀ b, SMap.get? m.media_bridges (bridge_key n med) = some b →
          SMap.entries b.consumers ≠ [] ∧
          ∀ c ∈ SMap.entries b.consumers,
            ∃ link, SMap.get? m.links c.1 = some link ∧ link.src_id = n ∧
              (med = "audio" → link.audio_enabled = true) ∧
              (med = "video" → link.video_enabled = true)) →
      (m.dispatch now (Command.Remove n)).1 = CommandResult.Success ∧
      SMap.containsKey (m.dispatch now (Command.Remove n)).2.nodes n = false ∧
      (∀ e ∈ SMap.entries (m.dispatch now (Command.Remove n)).2.links,
        e.2.src_id ≠ n ∧ e.2.sink_id ≠ n) ∧
      SMap.containsKey (m.dispatch now (Command.Remove n)).2.media_bridges
        (bridge_key n "audio") = false ∧
      SMap.containsKey (m.dispatch now (Command.Remove n)).2.media_bridges
        (bridge_key n "video") = false := by
  intro m n now hn hndl hwf
  have hm0n : (if m.started = true then m else { m with started := true }).nodes =
      m.nodes := by
    split <;> rfl
  have hm0l : (if m.started = true then m else { m with started := true }).links =
      m.links := by
    split <;> rfl
  have hm0b : (if m.started = true then m else
      { m with started := true }).media_bridges = m.media_bridges := by
    split <;> rfl
  have hn2 : SMap.containsKey ((if m.started = true then m else
      { m with started := true }).refresh_nodes now).nodes n = true := by
    have h1 : SMap.containsKey ((if m.started = true then m else
        { m with started := true }).refresh_nodes now).nodes n =
        SMap.containsKey (if m.started = true then m else
          { m with started := true }).nodes n :=
      SMap.containsKey_mapValues
        (if m.started = true then m else { m with started := true }).nodes
        (fun nr => nr.refresh_runtime now) n
    rw [h1, hm0n]
    exact hn
  have hndl2 : List.Nodup (SMap.keys ((if m.started = true then m else
      { m with started := true }).refresh_nodes now).links) := by
    have h1 : ((if m.started = true then m else
        { m with started := true }).refresh_nodes now).links = m.links := hm0l
    rw [h1]
    exact hndl
  have hwf2 : ∀ med, med = "audio" ∨ med = "video" →
      ∀ b, SMap.get? ((if m.started = true then m else
          { m with started := true }).refresh_nodes now).media_bridges
        (bridge_key n med) = some b →
        SMap.entries b.consumers ≠ [] ∧
        ∀ c ∈ SMap.entries b.consumers,
          ∃ link, SMap.get? ((if m.started = true then m else
              { m with started := true }).refresh_nodes now).links c.1 = some link ∧
            link.src_id = n ∧
            (med = "audio" → link.audio_enabled = true) ∧
            (med = "video" → link.video_enabled = true) := by
    have h1 : ((if m.started = true then m else
        { m with started := true }).refresh_nodes now).media_bridges =
        m.media_bridges := hm0b
    have h2 : ((if m.started = true then m else
        { m with started := true }).refresh_nodes now).links = m.links := hm0l
    rw [h1, h2]
    exact hwf
  obtain ⟨m3, hrm, p1, p2, p3, p4⟩ :=
    remove_node_spec ((if m.started = true then m else
      { m with started := true }).refresh_nodes now) n hn2 hndl2 hwf2
  unfold NodeManager.dispatch
  dsimp only [NodeManager.sync_media_links]
  rw [hrm]
  refine ⟨rfl, ?_, ?_, ?_, ?_⟩
  · exact (SMap.containsKey_mapValues m3.nodes
      (fun nr => nr.refresh_runtime now) n).trans p1
  · exact p2
  · exact p3
  · exact p4

/-- A one-node graph used to witness C6. -/
def c6manager : NodeManager :=
  { started := true
    nodes := [("s", NodeRecord.Source (SourceNode.new "s" "file:///a.mp4" true true))]
    links := SMap.nil, media_bridges := SMap.nil }

/-- Witness for C6: removing the only node of a one-node graph. -/
theorem C6_remove_cascade_witness :
    (c6manager.dispatch 0 (Command.Remove "s")).1 = CommandResult.Success ∧
    SMap.containsKey (c6manager.dispatch 0 (Command.Remove "s")).2.nodes "s" = false :=
  have h := C6_remove_cascade c6manager "s" 0 (by decide) (by decide)
    (fun med hmed b hb => nomatch hb)
  ⟨h.1, h.2.1⟩

/-! ## Claim C9: HTTP command endpoint -/

/-- Every serialized `ServerMessage` contains the `"result"` field of the
envelope. -/
lemma to_json_result (pr : CommandResult → String) (sm : ServerMessage) :
    ∃ pre post, ServerMessage.to_json pr sm = pre ++ "\"result\":" ++ post := by
  refine ⟨"\x7b\"id\":" ++
    (match sm.id with
     | some u => "\"" ++ u ++ "\""
     | none => "null") ++ ",", pr sm.result ++ "\x7d", ?_⟩
  unfold ServerMessage.to_json
  simp only [String.append_assoc]
  rfl

lemma findSub_eq_none {pat : List Char} :
    ∀ l : List Char, ¬ List.IsInfix pat l → findSub pat l = none := by
  intro l
  induction l with
  | nil =>
    intro h
    unfold findSub
    rw [if_neg (show ¬ (pat = []) from fun hp => h (hp ▸ List.nil_infix))]
  | cons c rest ih =>
    intro h
    unfold findSub
    rw [if_neg (fun hp => h (List.isPrefixOf_iff_prefix.mp hp).isInfix),
      ih (fun hi => h (hi.trans (List.suffix_cons c rest).isInfix))]
    rfl

/-- The header loop never reports a terminator when `\r\n\r\n` does not
occur in what it can ever buffer. -/
lemma rhl_none : ∀ (f : Nat) (stream buffer : List Char), stream.length ≤ f →
    ¬ List.IsInfix crlf2 (buffer ++ stream) →
    (read_header_loop buffer none stream).2.1 = none := by
  intro f
  induction f with
  | zero =>
    intro stream buffer hlen hinf
    have hst : stream = [] := List.eq_nil_of_length_eq_zero (Nat.le_zero.mp hlen)
    subst hst
    unfold read_header_loop
    split
    · rfl
    · rfl
  | succ k ih =>
    intro stream buffer hlen hinf
    unfold read_header_loop
    split
    · rfl
    · cases stream with
      | nil => rfl
      | cons c rest0 =>
        dsimp only
        have hbuf : findSub crlf2 (buffer ++ (c :: rest0).take 4096) = none := by
          apply findSub_eq_none
          intro hi
          exact hinf (hi.trans
            ((List.prefix_append_right_inj buffer).mpr
              (List.take_prefix 4096 (c :: rest0))).isInfix)
        rw [hbuf]
        apply ih
        · rw [List.length_drop]
          have h1 : (c :: rest0).length ≤ k + 1 := hlen
          have h2 : 1 ≤ (c :: rest0).length := by
            rw [List.length_cons]
            omega
          omega
        · intro hi
          apply hinf
          rw [show buffer ++ (c :: rest0) =
              (buffer ++ (c :: rest0).take 4096) ++ (c :: rest0).drop 4096 from by
            rw [List.append_assoc, List.take_append_drop]]
          exact hi

lemma parse_missing_terminator (stream : List Char)
    (h : ¬ List.IsInfix crlf2 stream) :
    parse_http_request stream =
      Except.error "Malformed HTTP request: missing header terminator" := by
  have h0 := rhl_none stream.length stream [] (Nat.le_refl _) (by simpa using h)
  unfold parse_http_request
  rcases hr : read_header_loop [] none stream with ⟨b, he, s⟩
  rw [hr] at h0
  dsimp only at h0 ⊢
  rw [h0]

/-- Claim C9 counterexample: `GET /health` answers `200 OK` (the health
endpoint), not the `404` the claim assigns to every `GET` outside
`/command`. -/
theorem C9_http_endpoint_counterexample :
    (handle_command_http_request (fun _ => none) (fun _ => "") NodeManager.default 0
      "GET" "/health" []).1.1 = "200 OK" ∧
    ("200 OK" : String) ≠ "404 Not Found" := by
  constructor
  · rfl
  · decide

/-- Claim C9 (amended): `POST /command` answers `200 OK` with a JSON body
containing `"result"`; `GET /health` aside, a `POST` or `GET` to any other
path answers `404`; any other method answers `405`; a request whose
headers lack the terminator, one whose declared `Content-Length` exceeds
1 MiB, and a body read that overflows 1 MiB all fail, and the connection
handler turns any parse failure into a `400` response with an error
body. -/
theorem C9_http_endpoint :
    (∀ (parse : String → Option InboundCommand) (printResult : CommandResult → String)
        (m : NodeManager) (now : Int) (body : List Char),
        ∃ payload m',
          handle_command_http_request parse printResult m now "POST" "/command" body =
            (("200 OK", "application/json", payload), m') ∧
          ∃ pre post, payload = pre ++ "\"result\":" ++ post) ∧
    (∀ (parse : String → Option InboundCommand) (printResult : CommandResult → String)
        (m : NodeManager) (now : Int) (p : String) (body : List Char),
        p ≠ "/command" →
        handle_command_http_request parse printResult m now "POST" p body =
          (("404 Not Found", "application/json",
            "\x7b\"error\":\"not found\"\x7d"), m)) ∧
    (∀ (parse : String → Option InboundCommand) (printResult : CommandResult → String)
        (m : NodeManager) (now : Int) (p : String) (body : List Char),
        p ≠ "/health" →
        handle_command_http_request parse printResult m now "GET" p body =
          (("404 Not Found", "application/json",
            "\x7b\"error\":\"not found\"\x7d"), m)) ∧
    (∀ (parse : String → Option InboundCommand) (printResult : CommandResult → String)
        (m : NodeManager) (now : Int) (method p : String) (body : List Char),
        method ≠ "POST" → method ≠ "GET" →
        handle_command_http_request parse printResult m now method p body =
          (("405 Method Not Allowed", "application/json",
            "\x7b\"error\":\"method not allowed\"\x7d"), m)) ∧
    (∀ (parse : String → Option InboundCommand) (printResult : CommandResult → String)
        (m : NodeManager) (now : Int) (stream : List Char) (e : String),
        parse_http_request stream = Except.error e →
        handle_command_http_connection parse printResult m now stream =
          (build_http_response "400 Bad Request" "application/json"
            ("\x7b\"error\":\"" ++ e ++ "\"\x7d"), m)) ∧
    (∀ stream : List Char, ¬ List.IsInfix crlf2 stream →
        parse_http_request stream =
          Except.error "Malformed HTTP request: missing header terminator") ∧
    (∀ (stream buffer rest : List Char) (idx : Nat) (request_line : List Char)
        (header_lines : List (List Char)) (method path : List Char)
        (ws : List (List Char)),
        read_header_loop [] none stream = (buffer, some idx, rest) →
        splitLines (buffer.take idx) = request_line :: header_lines →
        splitWords request_line = method :: path :: ws →
        GRAPH_COMMAND_MAX_REQUEST_SIZE < contentLengthOf header_lines →
        parse_http_request stream = Except.error "HTTP request body is too large") ∧
    (∀ (body : List Char) (cl : Nat) (c : Char) (rest : List Char),
        ¬ cl ≤ body.length →
        GRAPH_COMMAND_MAX_REQUEST_SIZE < (body ++ (c :: rest).take 4096).length →
        read_body_loop body cl (c :: rest) =
          Except.error "HTTP request body is too large") := by
  refine ⟨?_, ?_, ?_, ?_, ?_, ?_, ?_, ?_⟩
  · intro parse printResult m now body
    refine ⟨(try_handle_command_json parse printResult m now (String.mk body)).1,
      (try_handle_command_json parse printResult m now (String.mk body)).2, ?_, ?_⟩
    · unfold handle_command_http_request
      rw [if_pos (show ("POST" : String) = "POST" ∧ ("/command" : String) = "/command"
        from by exact ⟨rfl, rfl⟩)]
    · have hsm : ∃ sm, (try_handle_command_json parse printResult m now
          (String.mk body)).1 = ServerMessage.to_json printResult sm := by
        unfold try_handle_command_json
        cases parse (String.mk body) with
        | none =>
          exact ⟨⟨none, CommandResult.Error
            "Invalid command payload: Failed to parse command JSON payload"⟩, rfl⟩
        | some ic =>
          cases ic with
          | Controller u c =>
            exact ⟨⟨some u, (m.dispatch now c).1⟩, rfl⟩
          | Cmd c =>
            exact ⟨⟨none, (m.dispatch now c).1⟩, rfl⟩
      obtain ⟨sm, hsm⟩ := hsm
      rw [hsm]
      exact to_json_result printResult sm
  · intro parse printResult m now p body hp
    unfold handle_command_http_request
    rw [if_neg (show ¬ (("POST" : String) = "POST" ∧ p = "/command")
        from fun h => hp h.2),
      if_neg (show ¬ (("POST" : String) = "GET" ∧ p = "/health")
        from fun h => absurd h.1 (by decide)),
      if_pos (show ("POST" : String) = "POST" ∨ ("POST" : String) = "GET"
        from Or.inl rfl)]
  · intro parse printResult m now p body hp
    unfold handle_command_http_request
    rw [if_neg (show ¬ (("GET" : String) = "POST" ∧ p = "/command")
        from fun h => absurd h.1 (by decide)),
      if_neg (show ¬ (("GET" : String) = "GET" ∧ p = "/health")
        from fun h => hp h.2),
      if_pos (show ("GET" : String) = "POST" ∨ ("GET" : String) = "GET"
        from Or.inr rfl)]
  · intro parse printResult m now method p body hm1 hm2
    unfold handle_command_http_request
    rw [if_neg (show ¬ (method = "POST" ∧ p = "/command") from fun h => hm1 h.1),
      if_neg (show ¬ (method = "GET" ∧ p = "/health") from fun h => hm2 h.1),
      if_neg (show ¬ (method = "POST" ∨ method = "GET")
        from fun h => h.elim hm1 hm2)]
  · intro parse printResult m now stream e he
    unfold handle_command_http_connection
    rw [he]
  · exact parse_missing_terminator
  · intro stream buffer rest idx request_line header_lines method path ws h1 h2 h3 h4
    unfold parse_http_request
    rw [h1]
    dsimp only
    rw [h2]
    dsimp only
    rw [h3]
    dsimp only
    rw [if_pos h4]
  · intro body cl c rest h1 h2
    unfold read_body_loop
    rw [if_neg h1]
    dsimp only
    rw [if_pos h2]

/-- Witness for C9 (amended): `POST /unknown` answers `404`. -/
theorem C9_http_endpoint_witness :
    handle_command_http_request (fun _ => none) (fun _ => "") NodeManager.default 0
      "POST" "/unknown" [] =
      (("404 Not Found", "application/json", "\x7b\"error\":\"not found\"\x7d"),
        NodeManager.default) :=
  C9_http_endpoint.2.1 (fun _ => none) (fun _ => "") NodeManager.default 0
    "/unknown" [] (by decide)

end Migration
